import Mathlib

/-!
Photon advisory updater (`photon/photon.go`).

A shallow embedding of the fetch / decode / persist pipeline of the Photon
updater.  The two side-effecting collaborators (`utils.FetchURL`, the network,
and `utils.WriteJSON`, the file system behind `Config.AppFs`) are explicit
state transformers supplied by an `Env`; every call made to them is recorded,
with its arguments and its outcome, in the trace returned by each operation.
`log.Printf` and the progress bar only report; they are not part of the model.
-/

namespace Photon

/-! ## Data model -/

/-- Raw payload returned by the feed (`[]byte`). -/
abbrev Bytes := List UInt8

/-- Go `error` values that are not nil.  `external` is an error produced by a
collaborator, `errorf m` is `xerrors.Errorf(m)`, and `wrap m e` is
`xerrors.Errorf(m + ": %w", e)`. -/
inductive Error where
  | external (msg : String)
  | errorf (msg : String)
  | wrap (msg : String) (cause : Error)
  deriving DecidableEq

/-- Modelled from the spec: the declaration of the record type `PhotonCVE` is not in
`photon.go`.  The code reads `Pkg` and `CveID` and assigns `OSVersion`; the spec
lists the identifier, the package name, the injected distribution version and
"arbitrary additional advisory fields preserved opaquely", kept here as `rest`. -/
structure PhotonCVE (ρ : Type) where
  OSVersion : String
  Pkg : String
  CveID : String
  rest : ρ
  deriving DecidableEq

/-- The configuration value `Config`; `φ` is the type of the `afero.Fs` handle. -/
structure Config (φ : Type) where
  VulnListDir : String
  URL : String
  AppFs : φ
  Retry : Int

def advisoryURL : String := "https://packages.vmware.com/photon/photon_cve_metadata/"

def versionsFile : String := "photon_versions.json"

/-- The format `advisoryFormat = "cve_data_photon%s.json"` applied to its one argument:
`fmt.Sprintf(advisoryFormat, version)`. -/
def advisoryFormat (version : String) : String := "cve_data_photon" ++ version ++ ".json"

def photonDir : String := "photon"

def retry : Int := 5

/-- The constructor `NewConfig`; the result of `utils.VulnListDir()` and the handle
returned by `afero.NewOsFs()` are passed in. -/
def NewConfig (vulnListDir : String) (osFs : φ) : Config φ :=
  { VulnListDir := vulnListDir, URL := advisoryURL, AppFs := osFs, Retry := retry }

/-- The state outside the program: `net` is whatever `utils.FetchURL` depends on and
changes, `store` is the contents of the file system behind `Config.AppFs`. -/
structure World (σ τ : Type) where
  net : σ
  store : τ

/-- One call to a collaborator, with its arguments and what came back. -/
inductive Event (ρ : Type) where
  | fetch (url : String) (retry : Int) (res : Except Error Bytes)
  | write (dir : String) (file : String) (data : PhotonCVE ρ) (res : Option Error)

/-- The collaborators of the updater.  `FetchURL url apikey retry` and
`WriteJSON fs dir file data` are the two functions of the `utils` package,
`UnmarshalVersions` is `json.Unmarshal` into the `branches` manifest followed by
reading `versions.Branches`, `UnmarshalCVEs` is `json.Unmarshal` into `[]PhotonCVE`,
and `Join` is `filepath.Join`. -/
structure Env (σ τ φ ρ : Type) where
  FetchURL : String → String → Int → σ → Except Error Bytes × σ
  WriteJSON : φ → String → String → PhotonCVE ρ → τ → Option Error × τ
  UnmarshalVersions : Bytes → Except Error (List String)
  UnmarshalCVEs : Bytes → Except Error (List (PhotonCVE ρ))
  Join : List String → String

/-! ## Library functions with a fixed meaning -/

/-- The function `strings.Split(s, sep)` for a one-character separator: the pieces of `s` between
consecutive occurrences of `sep`, empty pieces included (so `Split "" sep = [""]`). -/
def Split (s : String) (sep : Char) : List String :=
  (s.data.splitOn sep).map String.mk

/-- The function `strings.ToLower` on the ASCII letters.  The Go function also lower-cases letters
outside ASCII; none of those is mapped to `d`, `e` or `v`, so the comparison with
`"dev"` made by `Update` is the same. -/
def ToLower (s : String) : String := ⟨s.data.map Char.toLower⟩

/-! ## Calls to the collaborators -/

variable {σ τ φ ρ : Type}

/-- The call `utils.FetchURL(url, "", retry)`: runs the collaborator on the network state and
records the call. -/
def callFetchURL (env : Env σ τ φ ρ) (url : String) (retry : Int) (w : World σ τ) :
    Except Error Bytes × World σ τ × List (Event ρ) :=
  match env.FetchURL url "" retry w.net with
  | (res, net1) => (res, { w with net := net1 }, [Event.fetch url retry res])

/-- The call `utils.WriteJSON(fs, dir, file, data)`: runs the collaborator on the store and
records the call. -/
def callWriteJSON (env : Env σ τ φ ρ) (fs : φ) (dir file : String) (data : PhotonCVE ρ)
    (w : World σ τ) : Option Error × World σ τ × List (Event ρ) :=
  match env.WriteJSON fs dir file data w.store with
  | (res, store1) => (res, { w with store := store1 }, [Event.write dir file data res])

/-! ## The operations of `photon.go` -/

/-- The method `Config.getPhotonVersion`. -/
def getPhotonVersion (env : Env σ τ φ ρ) (c : Config φ) (w : World σ τ) :
    Except Error (List String) × World σ τ × List (Event ρ) :=
  match callFetchURL env (c.URL ++ versionsFile) c.Retry w with
  | (.error err, w1, t) => (.error (.wrap "failed to fetch Photon versions" err), w1, t)
  | (.ok res, w1, t) =>
    match env.UnmarshalVersions res with
    | .error err => (.error (.wrap "failed to decode Photon versions" err), w1, t)
    | .ok branches => (.ok branches, w1, t)

/-- The `for i := 0; i < c.Retry; i++` loop of `fetchAdvisory` with `n` iterations left
(the counter `i` itself only appears in the log line).  `some res` is the
`return res, nil` inside the loop, `none` is falling out of the loop. -/
def fetchAttempts (env : Env σ τ φ ρ) (url : String) :
    Nat → World σ τ → Option Bytes × World σ τ × List (Event ρ)
  | 0, w => (none, w, [])
  | n + 1, w =>
    match callFetchURL env url 1 w with
    | (.ok res, w1, t1) => (some res, w1, t1)
    | (.error _, w1, t1) =>
      match fetchAttempts env url n w1 with
      | (r, w2, t2) => (r, w2, t1 ++ t2)

/-- The method `Config.fetchAdvisory`.  The loop runs `max c.Retry 0` times. -/
def fetchAdvisory (env : Env σ τ φ ρ) (c : Config φ) (version : String) (w : World σ τ) :
    Except Error Bytes × World σ τ × List (Event ρ) :=
  match fetchAttempts env (c.URL ++ advisoryFormat version) c.Retry.toNat w with
  | (some res, w1, t) => (.ok res, w1, t)
  | (none, w1, t) =>
    (.error (.errorf ("failed to fetch Photon advisory for version " ++ version ++
      " after " ++ toString c.Retry ++ " retries")), w1, t)

/-- The method `Config.saveCVEPerPkg`. -/
def saveCVEPerPkg (env : Env σ τ φ ρ) (c : Config φ) (dirName pkgName cveID : String)
    (data : PhotonCVE ρ) (w : World σ τ) : Option Error × World σ τ × List (Event ρ) :=
  if cveID = "" then (none, w, [])
  else if (Split cveID '-').length ≠ 3 then
    (some (.errorf ("invalid CVE-ID format: " ++ cveID)), w, [])
  else
    match callWriteJSON env c.AppFs (env.Join [c.VulnListDir, dirName, pkgName])
        (cveID ++ ".json") data w with
    | (some err, w1, t) => (some (.wrap "failed to write file" err), w1, t)
    | (none, w1, t) => (none, w1, t)

/-- The inner loop of `Update`, `for _, def := range cves`, on the records still to be
visited. -/
def saveCVEs (env : Env σ τ φ ρ) (c : Config φ) (version dir : String) :
    List (PhotonCVE ρ) → World σ τ → Option Error × World σ τ × List (Event ρ)
  | [], w => (none, w, [])
  | d :: rest, w =>
    match saveCVEPerPkg env c dir d.Pkg d.CveID { d with OSVersion := version } w with
    | (some err, w1, t1) =>
      (some (.wrap "failed to save CVE-ID per package name" err), w1, t1)
    | (none, w1, t1) =>
      match saveCVEs env c version dir rest w1 with
      | (r, w2, t2) => (r, w2, t1 ++ t2)

/-- The outer loop of `Update`, `for _, version := range versions`, on the versions
still to be visited. -/
def updateVersions (env : Env σ τ φ ρ) (c : Config φ) :
    List String → World σ τ → Option Error × World σ τ × List (Event ρ)
  | [], w => (none, w, [])
  | version :: rest, w =>
    if ToLower version = "dev" then updateVersions env c rest w
    else
      match fetchAdvisory env c version w with
      | (.error err, w1, t1) => (some (.wrap "failed to fetch Photon advisory" err), w1, t1)
      | (.ok res, w1, t1) =>
        match env.UnmarshalCVEs res with
        | .error err => (some (.wrap "failed to unmarshal Photon advisory" err), w1, t1)
        | .ok cves =>
          match saveCVEs env c version (env.Join [photonDir, version]) cves w1 with
          | (some err, w2, t2) => (some err, w2, t1 ++ t2)
          | (none, w2, t2) =>
            match updateVersions env c rest w2 with
            | (r, w3, t3) => (r, w3, t1 ++ t2 ++ t3)

/-- The method `Config.Update`. -/
def Update (env : Env σ τ φ ρ) (c : Config φ) (w : World σ τ) :
    Option Error × World σ τ × List (Event ρ) :=
  match getPhotonVersion env c w with
  | (.error err, w1, t) => (some (.wrap "failed to get Photon versions" err), w1, t)
  | (.ok versions, w1, t) =>
    match updateVersions env c versions w1 with
    | (r, w2, t2) => (r, w2, t ++ t2)

/-! ## The store as a map, and a scripted environment for worked examples -/

/-- Modelled from the spec: `utils.WriteJSON` is not in `photon.go`.  The store is a
map from file path to the document held there. -/
abbrev Store (ρ : Type) := String → Option (PhotonCVE ρ)

/-- Modelled from the spec: `utils.WriteJSON` is not in `photon.go`.  Per the
Persistence Writer section it "constructs a file name `<identifier>.json` inside
`baseDir/subPath`", writes the serialised record there and "overwrites an existing
file at the same path without warning"; the document is represented by the record
it serialises, and the write succeeds. -/
def memWriteJSON (join : List String → String) (_fs : φ) (dir file : String)
    (data : PhotonCVE ρ) (st : Store ρ) : Option Error × Store ρ :=
  (none, fun p => if p = join [dir, file] then some data else st p)

/-- An environment whose store is the map above; the network, the decoders and
`filepath.Join` stay arbitrary. -/
def memEnv (fetchURL : String → String → Int → σ → Except Error Bytes × σ)
    (unmarshalVersions : Bytes → Except Error (List String))
    (unmarshalCVEs : Bytes → Except Error (List (PhotonCVE ρ)))
    (join : List String → String) : Env σ (Store ρ) φ ρ :=
  { FetchURL := fetchURL
    WriteJSON := memWriteJSON join
    UnmarshalVersions := unmarshalVersions
    UnmarshalCVEs := unmarshalCVEs
    Join := join }

/-- The effect of the write calls of a trace on a map store, in trace order. -/
def applyWrites (join : List String → String) : List (Event ρ) → Store ρ → Store ρ
  | [], st => st
  | Event.fetch _ _ _ :: t, st => applyWrites join t st
  | Event.write dir file data _ :: t, st =>
    applyWrites join t (fun p => if p = join [dir, file] then some data else st p)

/-- The elements that are not empty, separated by `/`: the value of `filepath.Join` on
elements that are already clean.  Used by the worked examples only. -/
def plainJoin (elems : List String) : String :=
  "/".intercalate (elems.filter (fun e => e ≠ ""))

/-- A scripted environment: the `k`-th call to `FetchURL` (counted from 0 in the
network state) for `url` answers `feed url k`; the store is a map. -/
def scriptedEnv (feed : String → Nat → Except Error Bytes)
    (manifest : Bytes → Except Error (List String))
    (payload : Bytes → Except Error (List (PhotonCVE String))) :
    Env Nat (Store String) Unit String :=
  memEnv (fun url _ _ k => (feed url k, k + 1)) manifest payload plainJoin

def demoConfig : Config Unit :=
  { VulnListDir := "vuln-list", URL := "https://feed/", AppFs := (), Retry := 2 }

def emptyWorld : World Nat (Store String) := { net := 0, store := fun _ => none }

/-- A feed that serves the manifest as `[0]`, the advisories of 3.0 as `[1]` and those
of 4.0 as `[2]`; every other request fails. -/
def demoFeed (url : String) (_k : Nat) : Except Error Bytes :=
  if url = "https://feed/photon_versions.json" then .ok [0]
  else if url = "https://feed/cve_data_photon3.0.json" then .ok [1]
  else if url = "https://feed/cve_data_photon4.0.json" then .ok [2]
  else .error (.external "not found")

/-- A manifest decoder that reads `[0]` as the given branches. -/
def manifestOf (branches : List String) (b : Bytes) : Except Error (List String) :=
  if b = [0] then .ok branches else .error (.external "bad manifest")

/-- An advisory decoder that reads `[1]` as `p3` and `[2]` as `p4`. -/
def payloadOf (p3 p4 : List (PhotonCVE String)) (b : Bytes) :
    Except Error (List (PhotonCVE String)) :=
  if b = [1] then .ok p3 else if b = [2] then .ok p4 else .error (.external "bad payload")

def curl0001 : PhotonCVE String :=
  { OSVersion := "", Pkg := "curl", CveID := "CVE-2020-0001", rest := "first" }

def curl0001b : PhotonCVE String :=
  { OSVersion := "wire", Pkg := "curl", CveID := "CVE-2020-0001", rest := "second" }

def curl0001c : PhotonCVE String :=
  { OSVersion := "", Pkg := "curl", CveID := "CVE-2020-0001", rest := "revised" }

def openssl0002 : PhotonCVE String :=
  { OSVersion := "", Pkg := "openssl", CveID := "CVE-2021-0002", rest := "third" }

def noIdentifier : PhotonCVE String :=
  { OSVersion := "", Pkg := "curl", CveID := "", rest := "no identifier" }

def shortIdentifier : PhotonCVE String :=
  { OSVersion := "", Pkg := "curl", CveID := "CVE-2020", rest := "two segments" }

/-- The end-to-end example of the spec: branches 3.0 and dev, one record for 3.0. -/
def demoEnv : Env Nat (Store String) Unit String :=
  scriptedEnv demoFeed (manifestOf ["3.0", "dev"]) (payloadOf [curl0001] [])

/-- Branch 3.0 with a record without identifier followed by a well-formed one. -/
def emptyIdEnv : Env Nat (Store String) Unit String :=
  scriptedEnv demoFeed (manifestOf ["3.0"]) (payloadOf [noIdentifier, curl0001] [])

/-- Branches 3.0 and 4.0; the second record of 3.0 has a two-segment identifier and
stands between two records for the same package and identifier. -/
def shortIdEnv : Env Nat (Store String) Unit String :=
  scriptedEnv demoFeed (manifestOf ["3.0", "4.0"])
    (payloadOf [curl0001, shortIdentifier, curl0001b] [openssl0002])

/-- Branch 3.0 with a record whose wire payload already names a version, a record
without identifier and a record for another package. -/
def stampEnv : Env Nat (Store String) Unit String :=
  scriptedEnv demoFeed (manifestOf ["3.0"])
    (payloadOf [curl0001b, noIdentifier, openssl0002] [])

/-- Branch 3.0 with three records for the same package and identifier. -/
def tripleEnv : Env Nat (Store String) Unit String :=
  scriptedEnv demoFeed (manifestOf ["3.0"]) (payloadOf [curl0001, curl0001b, curl0001c] [])

/-- Branches 3.0, Dev, 4.0 and 3.0 again; 3.0 has a record without identifier between
two records for the same package and identifier. -/
def orderEnv : Env Nat (Store String) Unit String :=
  scriptedEnv demoFeed (manifestOf ["3.0", "Dev", "4.0", "3.0"])
    (payloadOf [curl0001, noIdentifier, curl0001b] [openssl0002])

/-- Branches 3.0, 5.0 and 4.0, where the feed has no advisories for 5.0. -/
def missingBranchEnv : Env Nat (Store String) Unit String :=
  scriptedEnv demoFeed (manifestOf ["3.0", "5.0", "4.0"]) (payloadOf [curl0001] [openssl0002])

/-! ## Vocabulary of the statements -/

/-- The network state after `k` consecutive calls `FetchURL(url, "", 1)` made from
the state `s`. -/
def netAfter (env : Env σ τ φ ρ) (url : String) : Nat → σ → σ
  | 0, s => s
  | k + 1, s => netAfter env url k (env.FetchURL url "" 1 s).2

/-- What attempt number `k` (counted from 0) of `FetchURL(url, "", 1)` answers when the
attempts are made one after the other from the state `s`. -/
def attemptOutcome (env : Env σ τ φ ρ) (url : String) (k : Nat) (s : σ) : Except Error Bytes :=
  (env.FetchURL url "" 1 (netAfter env url k s)).1

/-- The call `ev` is made for the version `version`, in a run whose trace is `t`: it
is an attempt to fetch the advisories of `version`, or it is the write of a record
`r` decoded from a payload that `t` shows fetched for `version`, carrying `r` with
its `OSVersion` set to `version`, to the path built from `version`, the package name
and the identifier of `r`. -/
def CallFor (env : Env σ τ φ ρ) (c : Config φ) (t : List (Event ρ)) (version : String)
    (ev : Event ρ) : Prop :=
  (∃ res, ev = Event.fetch (c.URL ++ advisoryFormat version) 1 res)
  ∨ ∃ b cves r res,
      Event.fetch (c.URL ++ advisoryFormat version) 1 (.ok b) ∈ t
      ∧ env.UnmarshalCVEs b = .ok cves ∧ r ∈ cves ∧ (Split r.CveID '-').length = 3
      ∧ ev = Event.write (env.Join [c.VulnListDir, env.Join [photonDir, version], r.Pkg])
          (r.CveID ++ ".json") { r with OSVersion := version } res

/-- The directory, file and record handed to the writer by the write calls of a
trace, in order. -/
def writeArgs : List (Event ρ) → List (String × String × PhotonCVE ρ)
  | [] => []
  | Event.fetch _ _ _ :: t => writeArgs t
  | Event.write dir file data _ :: t => (dir, file, data) :: writeArgs t

/-- The write calls of a trace, in order. -/
def writesOf : List (Event ρ) → List (Event ρ)
  | [] => []
  | Event.fetch _ _ _ :: t => writesOf t
  | Event.write dir file data res :: t => Event.write dir file data res :: writesOf t

/-! ## Theorems -/

theorem splitOn_length (l : List Char) (sep : Char) :
    (l.splitOn sep).length = l.count sep + 1 := by
  induction l with
  | nil => simp [List.splitOn, List.splitOnP_nil]
  | cons x xs ih =>
    rw [List.splitOn, List.splitOnP_cons]
    rw [List.splitOn] at ih
    by_cases hx : x = sep
    · subst hx
      simp [ih]
    · have hne : (x == sep) = false := by simpa using hx
      rw [hne]
      have hcount : (x :: xs).count sep = xs.count sep := by
        rw [List.count_cons]
        simp [hx]
      simp only [Bool.false_eq_true, if_false, hcount]
      cases hs : List.splitOnP (fun y => y == sep) xs with
      | nil => exact absurd hs (List.splitOnP_ne_nil _ _)
      | cons h t =>
        rw [hs] at ih
        simpa [List.modifyHead] using ih

theorem Split_length (s : String) (sep : Char) :
    (Split s sep).length = s.data.count sep + 1 := by
  simp [Split, splitOn_length]

/-! ### Calls to the collaborators -/

theorem callFetchURL_eq (env : Env σ τ φ ρ) (url : String) (n : Int) (w : World σ τ) :
    callFetchURL env url n w
      = ((env.FetchURL url "" n w.net).1, { w with net := (env.FetchURL url "" n w.net).2 },
         [Event.fetch url n (env.FetchURL url "" n w.net).1]) := rfl

theorem callWriteJSON_eq (env : Env σ τ φ ρ) (fs : φ) (dir file : String)
    (data : PhotonCVE ρ) (w : World σ τ) :
    callWriteJSON env fs dir file data w
      = ((env.WriteJSON fs dir file data w.store).1,
         { w with store := (env.WriteJSON fs dir file data w.store).2 },
         [Event.write dir file data (env.WriteJSON fs dir file data w.store).1]) := rfl

/-! ### `saveCVEPerPkg` -/

theorem saveCVEPerPkg_empty (env : Env σ τ φ ρ) (c : Config φ) (dirName pkgName : String)
    (data : PhotonCVE ρ) (w : World σ τ) :
    saveCVEPerPkg env c dirName pkgName "" data w = (none, w, []) := by
  simp [saveCVEPerPkg]

theorem saveCVEPerPkg_invalid (env : Env σ τ φ ρ) (c : Config φ)
    (dirName pkgName cveID : String) (data : PhotonCVE ρ) (w : World σ τ)
    (hne : cveID ≠ "") (hseg : (Split cveID '-').length ≠ 3) :
    saveCVEPerPkg env c dirName pkgName cveID data w
      = (some (.errorf ("invalid CVE-ID format: " ++ cveID)), w, []) := by
  simp [saveCVEPerPkg, hne, hseg]

theorem Split_three_ne_empty (cveID : String) (h : (Split cveID '-').length = 3) :
    cveID ≠ "" := by
  intro he
  subst he
  revert h
  decide

theorem saveCVEPerPkg_valid (env : Env σ τ φ ρ) (c : Config φ)
    (dirName pkgName cveID : String) (data : PhotonCVE ρ) (w : World σ τ)
    (hseg : (Split cveID '-').length = 3) :
    saveCVEPerPkg env c dirName pkgName cveID data w
      = ((env.WriteJSON c.AppFs (env.Join [c.VulnListDir, dirName, pkgName])
            (cveID ++ ".json") data w.store).1.map (Error.wrap "failed to write file"),
         { w with store := (env.WriteJSON c.AppFs (env.Join [c.VulnListDir, dirName, pkgName])
            (cveID ++ ".json") data w.store).2 },
         [Event.write (env.Join [c.VulnListDir, dirName, pkgName]) (cveID ++ ".json") data
            (env.WriteJSON c.AppFs (env.Join [c.VulnListDir, dirName, pkgName])
              (cveID ++ ".json") data w.store).1]) := by
  have hne := Split_three_ne_empty cveID hseg
  simp only [saveCVEPerPkg, hne, hseg, if_false, ne_eq, not_true_eq_false]
  rw [callWriteJSON_eq]
  generalize env.WriteJSON c.AppFs (env.Join [c.VulnListDir, dirName, pkgName])
      (cveID ++ ".json") data w.store = r
  rcases r with ⟨_ | err, st⟩ <;> rfl

/-- C1: when the identifier splits on "-" into exactly three segments, `saveCVEPerPkg`,
called with `dirName = filepath.Join("photon", version)` as `Update` calls it, issues
exactly one write; the write targets the file `<identifier>.json` in the directory
`filepath.Join(VulnListDir, filepath.Join("photon", version), pkgName)` and carries the
record; the store afterwards is the one the writer left; and when the write returns
no error the call returns no error. -/
theorem saveCVEPerPkg_three_segments_one_write (env : Env σ τ φ ρ) (c : Config φ)
    (version pkgName cveID : String) (data : PhotonCVE ρ) (w : World σ τ)
    (hseg : (Split cveID '-').length = 3) :
    (saveCVEPerPkg env c (env.Join [photonDir, version]) pkgName cveID data w).2.2
        = [Event.write (env.Join [c.VulnListDir, env.Join [photonDir, version], pkgName])
            (cveID ++ ".json") data
            (env.WriteJSON c.AppFs
              (env.Join [c.VulnListDir, env.Join [photonDir, version], pkgName])
              (cveID ++ ".json") data w.store).1]
    ∧ (saveCVEPerPkg env c (env.Join [photonDir, version]) pkgName cveID data w).2.1
        = { w with store := (env.WriteJSON c.AppFs
              (env.Join [c.VulnListDir, env.Join [photonDir, version], pkgName])
              (cveID ++ ".json") data w.store).2 }
    ∧ ((env.WriteJSON c.AppFs
          (env.Join [c.VulnListDir, env.Join [photonDir, version], pkgName])
          (cveID ++ ".json") data w.store).1 = none →
        (saveCVEPerPkg env c (env.Join [photonDir, version]) pkgName cveID data w).1
          = none) := by
  rw [saveCVEPerPkg_valid env c _ pkgName cveID data w hseg]
  refine ⟨rfl, rfl, ?_⟩
  intro h
  simp [h]

theorem saveCVEPerPkg_three_segments_one_write_witness :
    (Split "CVE-2020-0001" '-').length = 3
    ∧ (saveCVEPerPkg demoEnv demoConfig (demoEnv.Join [photonDir, "3.0"]) "curl"
        "CVE-2020-0001" { curl0001 with OSVersion := "3.0" } emptyWorld).2.2
      = [Event.write "vuln-list/photon/3.0/curl" "CVE-2020-0001.json"
          { curl0001 with OSVersion := "3.0" } none]
    ∧ (saveCVEPerPkg demoEnv demoConfig (demoEnv.Join [photonDir, "3.0"]) "curl"
        "CVE-2020-0001" { curl0001 with OSVersion := "3.0" } emptyWorld).1 = none :=
  ⟨by decide,
   (saveCVEPerPkg_three_segments_one_write demoEnv demoConfig "3.0" "curl"
      "CVE-2020-0001" { curl0001 with OSVersion := "3.0" } emptyWorld (by decide)).1,
   (saveCVEPerPkg_three_segments_one_write demoEnv demoConfig "3.0" "curl"
      "CVE-2020-0001" { curl0001 with OSVersion := "3.0" } emptyWorld (by decide)).2.2 rfl⟩

/-- C3: a record whose identifier is the empty string makes `saveCVEPerPkg` return no
error without any write and without touching the world, so the loop of `Update` over
the records goes on with the next record exactly as if the record were absent. -/
theorem empty_identifier_skipped (env : Env σ τ φ ρ) (c : Config φ) (version dir : String)
    (d : PhotonCVE ρ) (rest : List (PhotonCVE ρ)) (w : World σ τ) (h : d.CveID = "") :
    saveCVEPerPkg env c dir d.Pkg d.CveID { d with OSVersion := version } w = (none, w, [])
    ∧ saveCVEs env c version dir (d :: rest) w = saveCVEs env c version dir rest w := by
  have h1 : saveCVEPerPkg env c dir d.Pkg d.CveID { d with OSVersion := version } w
      = (none, w, []) := by
    rw [h]
    exact saveCVEPerPkg_empty env c dir d.Pkg _ w
  refine ⟨h1, ?_⟩
  simp only [saveCVEs]
  rw [h1]
  simp

theorem empty_identifier_skipped_witness :
    ({ curl0001 with CveID := "" } : PhotonCVE String).CveID = ""
    ∧ saveCVEs demoEnv demoConfig "3.0" "photon/3.0" [{ curl0001 with CveID := "" }, curl0001]
        emptyWorld
      = saveCVEs demoEnv demoConfig "3.0" "photon/3.0" [curl0001] emptyWorld :=
  ⟨rfl, (empty_identifier_skipped demoEnv demoConfig "3.0" "photon/3.0"
      { curl0001 with CveID := "" } [curl0001] emptyWorld rfl).2⟩

/-- C10: `saveCVEPerPkg` calls the writer exactly when the identifier contains exactly
two `-` characters, and then with the file name `<identifier>.json`; nothing else about
the identifier is looked at.  The empty identifier returns no error and leaves the
world alone; every other identifier is rejected with the format error. -/
theorem saveCVEPerPkg_write_iff_two_hyphens (env : Env σ τ φ ρ) (c : Config φ)
    (dirName pkgName cveID : String) (data : PhotonCVE ρ) (w : World σ τ) :
    ((∃ dir file d res, Event.write dir file d res
          ∈ (saveCVEPerPkg env c dirName pkgName cveID data w).2.2)
        ↔ cveID.data.count '-' = 2)
    ∧ (cveID.data.count '-' = 2 →
        (saveCVEPerPkg env c dirName pkgName cveID data w).2.2
          = [Event.write (env.Join [c.VulnListDir, dirName, pkgName]) (cveID ++ ".json") data
              (env.WriteJSON c.AppFs (env.Join [c.VulnListDir, dirName, pkgName])
                (cveID ++ ".json") data w.store).1])
    ∧ (cveID = "" → saveCVEPerPkg env c dirName pkgName cveID data w = (none, w, []))
    ∧ (cveID ≠ "" → cveID.data.count '-' ≠ 2 →
        saveCVEPerPkg env c dirName pkgName cveID data w
          = (some (.errorf ("invalid CVE-ID format: " ++ cveID)), w, [])) := by
  have hlen := Split_length cveID '-'
  have hvalid : cveID.data.count '-' = 2 →
      (saveCVEPerPkg env c dirName pkgName cveID data w).2.2
        = [Event.write (env.Join [c.VulnListDir, dirName, pkgName]) (cveID ++ ".json") data
            (env.WriteJSON c.AppFs (env.Join [c.VulnListDir, dirName, pkgName])
              (cveID ++ ".json") data w.store).1] := by
    intro h2
    rw [saveCVEPerPkg_valid env c dirName pkgName cveID data w (by omega)]
  have hempty : cveID = "" → saveCVEPerPkg env c dirName pkgName cveID data w
      = (none, w, []) := by
    intro he
    rw [he]
    exact saveCVEPerPkg_empty env c dirName pkgName data w
  have hbad : cveID ≠ "" → cveID.data.count '-' ≠ 2 →
      saveCVEPerPkg env c dirName pkgName cveID data w
        = (some (.errorf ("invalid CVE-ID format: " ++ cveID)), w, []) := by
    intro hne h2
    exact saveCVEPerPkg_invalid env c dirName pkgName cveID data w hne (by omega)
  refine ⟨⟨?_, ?_⟩, hvalid, hempty, hbad⟩
  · rintro ⟨dir, file, d, res, hmem⟩
    by_contra h2
    by_cases he : cveID = ""
    · rw [hempty he] at hmem
      simp at hmem
    · rw [hbad he h2] at hmem
      simp at hmem
  · intro h2
    rw [hvalid h2]
    exact ⟨_, _, _, _, List.mem_singleton.2 rfl⟩

theorem saveCVEPerPkg_write_iff_two_hyphens_witness :
    ("--" : String).data.count '-' = 2
    ∧ (saveCVEPerPkg demoEnv demoConfig "photon/3.0" "curl" "--" curl0001 emptyWorld).2.2
        = [Event.write "vuln-list/photon/3.0/curl" "--.json" curl0001 none]
    ∧ ("a--" : String).data.count '-' = 2
    ∧ (saveCVEPerPkg demoEnv demoConfig "photon/3.0" "curl" "a--" curl0001 emptyWorld).2.2
        = [Event.write "vuln-list/photon/3.0/curl" "a--.json" curl0001 none]
    ∧ saveCVEPerPkg demoEnv demoConfig "photon/3.0" "curl" "CVE-2020" curl0001 emptyWorld
        = (some (.errorf "invalid CVE-ID format: CVE-2020"), emptyWorld, []) :=
  ⟨by decide,
   (saveCVEPerPkg_write_iff_two_hyphens demoEnv demoConfig "photon/3.0" "curl" "--"
      curl0001 emptyWorld).2.1 (by decide),
   by decide,
   (saveCVEPerPkg_write_iff_two_hyphens demoEnv demoConfig "photon/3.0" "curl" "a--"
      curl0001 emptyWorld).2.1 (by decide),
   (saveCVEPerPkg_write_iff_two_hyphens demoEnv demoConfig "photon/3.0" "curl" "CVE-2020"
      curl0001 emptyWorld).2.2.2 (by decide) (by decide)⟩

/-! ### `fetchAdvisory` -/

theorem fetchAttempts_spec (env : Env σ τ φ ρ) (url : String) (n : Nat) (w : World σ τ) :
    (∃ k, k < n ∧ ∃ b, attemptOutcome env url k w.net = .ok b
        ∧ (∀ j, j < k → ∃ e, attemptOutcome env url j w.net = .error e)
        ∧ fetchAttempts env url n w
            = (some b, { w with net := netAfter env url (k + 1) w.net },
               (List.range (k + 1)).map
                 (fun j => Event.fetch url 1 (attemptOutcome env url j w.net))))
    ∨ ((∀ j, j < n → ∃ e, attemptOutcome env url j w.net = .error e)
        ∧ fetchAttempts env url n w
            = (none, { w with net := netAfter env url n w.net },
               (List.range n).map
                 (fun j => Event.fetch url 1 (attemptOutcome env url j w.net)))) := by
  induction n generalizing w with
  | zero =>
    right
    exact ⟨fun j hj => absurd hj (Nat.not_lt_zero j), rfl⟩
  | succ n ih =>
    simp only [fetchAttempts]
    rw [callFetchURL_eq]
    cases h0 : (env.FetchURL url "" 1 w.net).1 with
    | ok b =>
      left
      refine ⟨0, Nat.succ_pos n, b, h0, fun j hj => absurd hj (Nat.not_lt_zero j), ?_⟩
      simp [netAfter, attemptOutcome, h0, List.range_succ]
    | error e =>
      have hshift : ∀ j, attemptOutcome env url (j + 1) w.net
          = attemptOutcome env url j (env.FetchURL url "" 1 w.net).2 := fun j => rfl
      have hzero : attemptOutcome env url 0 w.net = .error e := h0
      rcases ih { w with net := (env.FetchURL url "" 1 w.net).2 } with
        ⟨k, hk, b, hb, hpre, heq⟩ | ⟨hall, heq⟩
      · left
        refine ⟨k + 1, Nat.succ_lt_succ hk, b, by rw [hshift]; exact hb, ?_, ?_⟩
        · intro j hj
          cases j with
          | zero => exact ⟨e, hzero⟩
          | succ j => rw [hshift]; exact hpre j (Nat.lt_of_succ_lt_succ hj)
        · simp only [heq]
          rw [List.range_succ_eq_map (k + 1)]
          simp only [List.map_cons, List.map_map, List.singleton_append, hzero]
          rfl
      · right
        refine ⟨?_, ?_⟩
        · intro j hj
          cases j with
          | zero => exact ⟨e, hzero⟩
          | succ j => rw [hshift]; exact hall j (Nat.lt_of_succ_lt_succ hj)
        · simp only [heq]
          rw [List.range_succ_eq_map n]
          simp only [List.map_cons, List.map_map, List.singleton_append, hzero]
          rfl

theorem fetchAdvisory_cases (env : Env σ τ φ ρ) (c : Config φ)
    (version : String) (w : World σ τ) :
    (∃ k, k < c.Retry.toNat ∧ ∃ b,
          attemptOutcome env (c.URL ++ advisoryFormat version) k w.net = .ok b
        ∧ (∀ j, j < k →
            ∃ e, attemptOutcome env (c.URL ++ advisoryFormat version) j w.net = .error e)
        ∧ fetchAdvisory env c version w
            = (.ok b,
               { w with net := netAfter env (c.URL ++ advisoryFormat version) (k + 1) w.net },
               (List.range (k + 1)).map (fun j =>
                 Event.fetch (c.URL ++ advisoryFormat version) 1
                   (attemptOutcome env (c.URL ++ advisoryFormat version) j w.net))))
      ∨ ((∀ j, j < c.Retry.toNat →
            ∃ e, attemptOutcome env (c.URL ++ advisoryFormat version) j w.net = .error e)
        ∧ fetchAdvisory env c version w
            = (.error (.errorf ("failed to fetch Photon advisory for version " ++ version ++
                  " after " ++ toString c.Retry ++ " retries")),
               { w with net :=
                  netAfter env (c.URL ++ advisoryFormat version) c.Retry.toNat w.net },
               (List.range c.Retry.toNat).map (fun j =>
                 Event.fetch (c.URL ++ advisoryFormat version) 1
                   (attemptOutcome env (c.URL ++ advisoryFormat version) j w.net)))) := by
  rcases fetchAttempts_spec env (c.URL ++ advisoryFormat version) c.Retry.toNat w with
    ⟨k, hk, b, hb, hpre, heq⟩ | ⟨hall, heq⟩
  · left
    exact ⟨k, hk, b, hb, hpre, by simp only [fetchAdvisory, heq]⟩
  · right
    exact ⟨hall, by simp only [fetchAdvisory, heq]⟩

/-- C5: `fetchAdvisory` with retry count `c.Retry` makes the attempts
`FetchURL(url, "", 1)` one after the other and either stops at the first attempt `k`
(with `k < c.Retry`) that answers without error, returning its bytes after exactly
`k + 1` attempts, or makes all `c.Retry` attempts, every one failing, and returns the
error.  So it never makes more than `c.Retry` attempts, it returns an error exactly
when each of the `c.Retry` attempts fails, and for `c.Retry ≤ 0` it makes no attempt
and returns the error. -/
theorem fetchAdvisory_first_success_or_exhausted (env : Env σ τ φ ρ) (c : Config φ)
    (version : String) (w : World σ τ) :
    ((∃ k, k < c.Retry.toNat ∧ ∃ b,
          attemptOutcome env (c.URL ++ advisoryFormat version) k w.net = .ok b
        ∧ (∀ j, j < k →
            ∃ e, attemptOutcome env (c.URL ++ advisoryFormat version) j w.net = .error e)
        ∧ fetchAdvisory env c version w
            = (.ok b,
               { w with net := netAfter env (c.URL ++ advisoryFormat version) (k + 1) w.net },
               (List.range (k + 1)).map (fun j =>
                 Event.fetch (c.URL ++ advisoryFormat version) 1
                   (attemptOutcome env (c.URL ++ advisoryFormat version) j w.net))))
      ∨ ((∀ j, j < c.Retry.toNat →
            ∃ e, attemptOutcome env (c.URL ++ advisoryFormat version) j w.net = .error e)
        ∧ fetchAdvisory env c version w
            = (.error (.errorf ("failed to fetch Photon advisory for version " ++ version ++
                  " after " ++ toString c.Retry ++ " retries")),
               { w with net :=
                  netAfter env (c.URL ++ advisoryFormat version) c.Retry.toNat w.net },
               (List.range c.Retry.toNat).map (fun j =>
                 Event.fetch (c.URL ++ advisoryFormat version) 1
                   (attemptOutcome env (c.URL ++ advisoryFormat version) j w.net)))))
    ∧ ((∃ e, (fetchAdvisory env c version w).1 = .error e)
        ↔ ∀ j, j < c.Retry.toNat →
            ∃ e, attemptOutcome env (c.URL ++ advisoryFormat version) j w.net = .error e)
    ∧ (fetchAdvisory env c version w).2.2.length ≤ c.Retry.toNat
    ∧ (c.Retry ≤ 0 →
        fetchAdvisory env c version w
          = (.error (.errorf ("failed to fetch Photon advisory for version " ++ version ++
                " after " ++ toString c.Retry ++ " retries")), w, [])) := by
  have hmain := fetchAdvisory_cases env c version w
  refine ⟨hmain, ?_, ?_, ?_⟩
  · rcases hmain with ⟨k, hk, b, hb, _, heq⟩ | ⟨hall, heq⟩
    · constructor
      · rintro ⟨e, he⟩
        rw [heq] at he
        cases he
      · intro hall
        obtain ⟨e, he⟩ := hall k hk
        rw [hb] at he
        cases he
    · exact ⟨fun _ => hall, fun _ => ⟨_, by rw [heq]⟩⟩
  · rcases hmain with ⟨k, hk, b, _, _, heq⟩ | ⟨_, heq⟩
    · rw [heq]
      simp only [List.length_map, List.length_range]
      exact hk
    · rw [heq]
      simp
  · intro h0
    have hn : c.Retry.toNat = 0 := Int.toNat_eq_zero.2 h0
    simp [fetchAdvisory, hn, fetchAttempts]

/-! ### The loops of `Update` -/

theorem saveCVEs_cons_ok (env : Env σ τ φ ρ) (c : Config φ) (version dir : String)
    (d : PhotonCVE ρ) (rest : List (PhotonCVE ρ)) (w w1 : World σ τ) (t1 : List (Event ρ))
    (h : saveCVEPerPkg env c dir d.Pkg d.CveID { d with OSVersion := version } w
      = (none, w1, t1)) :
    saveCVEs env c version dir (d :: rest) w
      = ((saveCVEs env c version dir rest w1).1, (saveCVEs env c version dir rest w1).2.1,
         t1 ++ (saveCVEs env c version dir rest w1).2.2) := by
  simp only [saveCVEs]
  rw [h]

theorem saveCVEs_cons_err (env : Env σ τ φ ρ) (c : Config φ) (version dir : String)
    (d : PhotonCVE ρ) (rest : List (PhotonCVE ρ)) (w w1 : World σ τ) (t1 : List (Event ρ))
    (err : Error)
    (h : saveCVEPerPkg env c dir d.Pkg d.CveID { d with OSVersion := version } w
      = (some err, w1, t1)) :
    saveCVEs env c version dir (d :: rest) w
      = (some (.wrap "failed to save CVE-ID per package name" err), w1, t1) := by
  simp only [saveCVEs]
  rw [h]

theorem saveCVEs_append_ok (env : Env σ τ φ ρ) (c : Config φ) (version dir : String)
    (pre post : List (PhotonCVE ρ)) (w w1 : World σ τ) (t1 : List (Event ρ))
    (h : saveCVEs env c version dir pre w = (none, w1, t1)) :
    saveCVEs env c version dir (pre ++ post) w
      = ((saveCVEs env c version dir post w1).1, (saveCVEs env c version dir post w1).2.1,
         t1 ++ (saveCVEs env c version dir post w1).2.2) := by
  induction pre generalizing w t1 with
  | nil =>
    simp only [saveCVEs, Prod.mk.injEq] at h
    obtain ⟨-, hw, ht⟩ := h
    subst hw
    subst ht
    simp
  | cons d pre ih =>
    rcases hd : saveCVEPerPkg env c dir d.Pkg d.CveID { d with OSVersion := version } w with
      ⟨_ | err, wd, td⟩
    · rw [saveCVEs_cons_ok env c version dir d pre w wd td hd] at h
      simp only [Prod.mk.injEq] at h
      obtain ⟨h1, h2, h3⟩ := h
      have hpre : saveCVEs env c version dir pre wd
          = (none, w1, (saveCVEs env c version dir pre wd).2.2) := by
        rw [← h1, ← h2]
      rw [List.cons_append, saveCVEs_cons_ok env c version dir d (pre ++ post) w wd td hd,
        ih wd _ hpre, ← h3]
      simp
    · rw [saveCVEs_cons_err env c version dir d pre w wd td err hd] at h
      simp at h

theorem updateVersions_dev (env : Env σ τ φ ρ) (c : Config φ) (version : String)
    (rest : List String) (w : World σ τ) (h : ToLower version = "dev") :
    updateVersions env c (version :: rest) w = updateVersions env c rest w := by
  simp only [updateVersions]
  rw [if_pos h]

theorem updateVersions_fetch_err (env : Env σ τ φ ρ) (c : Config φ) (version : String)
    (rest : List String) (w w1 : World σ τ) (t1 : List (Event ρ)) (err : Error)
    (hdev : ToLower version ≠ "dev")
    (h : fetchAdvisory env c version w = (.error err, w1, t1)) :
    updateVersions env c (version :: rest) w
      = (some (.wrap "failed to fetch Photon advisory" err), w1, t1) := by
  simp only [updateVersions]
  rw [if_neg hdev, h]

theorem updateVersions_decode_err (env : Env σ τ φ ρ) (c : Config φ) (version : String)
    (rest : List String) (w w1 : World σ τ) (t1 : List (Event ρ)) (res : Bytes) (err : Error)
    (hdev : ToLower version ≠ "dev")
    (h : fetchAdvisory env c version w = (.ok res, w1, t1))
    (hdec : env.UnmarshalCVEs res = .error err) :
    updateVersions env c (version :: rest) w
      = (some (.wrap "failed to unmarshal Photon advisory" err), w1, t1) := by
  simp only [updateVersions]
  rw [if_neg hdev, h]
  simp only [hdec]

theorem updateVersions_save_err (env : Env σ τ φ ρ) (c : Config φ) (version : String)
    (rest : List String) (w w1 w2 : World σ τ) (t1 t2 : List (Event ρ)) (res : Bytes)
    (cves : List (PhotonCVE ρ)) (err : Error)
    (hdev : ToLower version ≠ "dev")
    (h : fetchAdvisory env c version w = (.ok res, w1, t1))
    (hdec : env.UnmarshalCVEs res = .ok cves)
    (hsave : saveCVEs env c version (env.Join [photonDir, version]) cves w1
      = (some err, w2, t2)) :
    updateVersions env c (version :: rest) w = (some err, w2, t1 ++ t2) := by
  simp only [updateVersions]
  rw [if_neg hdev, h]
  simp only [hdec, hsave]

theorem updateVersions_step_ok (env : Env σ τ φ ρ) (c : Config φ) (version : String)
    (rest : List String) (w w1 w2 : World σ τ) (t1 t2 : List (Event ρ)) (res : Bytes)
    (cves : List (PhotonCVE ρ))
    (hdev : ToLower version ≠ "dev")
    (h : fetchAdvisory env c version w = (.ok res, w1, t1))
    (hdec : env.UnmarshalCVEs res = .ok cves)
    (hsave : saveCVEs env c version (env.Join [photonDir, version]) cves w1
      = (none, w2, t2)) :
    updateVersions env c (version :: rest) w
      = ((updateVersions env c rest w2).1, (updateVersions env c rest w2).2.1,
         t1 ++ t2 ++ (updateVersions env c rest w2).2.2) := by
  simp only [updateVersions]
  rw [if_neg hdev, h]
  simp only [hdec, hsave]

theorem updateVersions_append_ok (env : Env σ τ φ ρ) (c : Config φ)
    (pre post : List String) (w w1 : World σ τ) (t1 : List (Event ρ))
    (h : updateVersions env c pre w = (none, w1, t1)) :
    updateVersions env c (pre ++ post) w
      = ((updateVersions env c post w1).1, (updateVersions env c post w1).2.1,
         t1 ++ (updateVersions env c post w1).2.2) := by
  induction pre generalizing w t1 with
  | nil =>
    simp only [updateVersions, Prod.mk.injEq] at h
    obtain ⟨-, hw, ht⟩ := h
    subst hw
    subst ht
    simp
  | cons v pre ih =>
    rw [List.cons_append]
    by_cases hdev : ToLower v = "dev"
    · rw [updateVersions_dev env c v _ w hdev] at h ⊢
      exact ih w t1 h
    · rcases hf : fetchAdvisory env c v w with ⟨_ | res, wf, tf⟩
      · rw [updateVersions_fetch_err env c v pre w wf tf _ hdev hf] at h
        simp at h
      · cases hdec : env.UnmarshalCVEs res with
        | error err =>
          rw [updateVersions_decode_err env c v pre w wf tf res err hdev hf hdec] at h
          simp at h
        | ok cves =>
          rcases hs : saveCVEs env c v (env.Join [photonDir, v]) cves wf with
            ⟨_ | err, ws, ts⟩
          · rw [updateVersions_step_ok env c v pre w wf ws tf ts res cves hdev hf hdec hs] at h
            simp only [Prod.mk.injEq] at h
            obtain ⟨h1, h2, h3⟩ := h
            have hpre : updateVersions env c pre ws
                = (none, w1, (updateVersions env c pre ws).2.2) := by
              rw [← h1, ← h2]
            rw [updateVersions_step_ok env c v (pre ++ post) w wf ws tf ts res cves hdev hf
              hdec hs, ih ws _ hpre, ← h3]
            simp
          · rw [updateVersions_save_err env c v pre w wf ws tf ts res cves err hdev hf hdec
              hs] at h
            simp at h

theorem Update_of_manifest (env : Env σ τ φ ρ) (c : Config φ) (w w0 : World σ τ)
    (t0 : List (Event ρ)) (versions : List String)
    (h : getPhotonVersion env c w = (.ok versions, w0, t0)) :
    Update env c w
      = ((updateVersions env c versions w0).1, (updateVersions env c versions w0).2.1,
         t0 ++ (updateVersions env c versions w0).2.2) := by
  simp only [Update]
  rw [h]

/-! ### Malformed identifiers -/

/-- C2, as stated, fails for the empty identifier: it splits into one segment, not
three, yet the run returns no error and the record after it is written. -/
theorem empty_identifier_run_succeeds :
    (Split noIdentifier.CveID '-').length ≠ 3
    ∧ Update emptyIdEnv demoConfig emptyWorld
      = (none,
         { net := 2,
           store := fun p => if p = "vuln-list/photon/3.0/curl/CVE-2020-0001.json"
             then some { curl0001 with OSVersion := "3.0" } else none },
         [Event.fetch "https://feed/photon_versions.json" 2 (.ok [0]),
          Event.fetch "https://feed/cve_data_photon3.0.json" 1 (.ok [1]),
          Event.write "vuln-list/photon/3.0/curl" "CVE-2020-0001.json"
            { curl0001 with OSVersion := "3.0" } none]) :=
  ⟨by decide, rfl⟩

/-- C2 (amended): when the run reaches a record whose identifier is not empty and does
not split on "-" into exactly three segments, `Update` returns the identifier-format
error (wrapped by the record loop), and the world and the trace are those reached
just before that record: nothing is written for it, for the later records of the
version, or for the later versions, and nothing more is fetched. -/
theorem Update_malformed_identifier_aborts (env : Env σ τ φ ρ) (c : Config φ)
    (w w0 w1 w2 w3 : World σ τ) (t0 t1 t2 t3 : List (Event ρ))
    (before after : List String) (version : String) (res : Bytes)
    (pre post : List (PhotonCVE ρ)) (d : PhotonCVE ρ)
    (hman : getPhotonVersion env c w = (.ok (before ++ version :: after), w0, t0))
    (hbefore : updateVersions env c before w0 = (none, w1, t1))
    (hdev : ToLower version ≠ "dev")
    (hfetch : fetchAdvisory env c version w1 = (.ok res, w2, t2))
    (hdec : env.UnmarshalCVEs res = .ok (pre ++ d :: post))
    (hpre : saveCVEs env c version (env.Join [photonDir, version]) pre w2 = (none, w3, t3))
    (hne : d.CveID ≠ "") (hseg : (Split d.CveID '-').length ≠ 3) :
    Update env c w
      = (some (.wrap "failed to save CVE-ID per package name"
            (.errorf ("invalid CVE-ID format: " ++ d.CveID))),
         w3, t0 ++ t1 ++ t2 ++ t3) := by
  have hd : saveCVEs env c version (env.Join [photonDir, version]) (d :: post) w3
      = (some (.wrap "failed to save CVE-ID per package name"
            (.errorf ("invalid CVE-ID format: " ++ d.CveID))), w3, []) :=
    saveCVEs_cons_err env c version _ d post w3 w3 [] _
      (saveCVEPerPkg_invalid env c _ d.Pkg d.CveID _ w3 hne hseg)
  have hsave : saveCVEs env c version (env.Join [photonDir, version]) (pre ++ d :: post) w2
      = (some (.wrap "failed to save CVE-ID per package name"
            (.errorf ("invalid CVE-ID format: " ++ d.CveID))), w3, t3) := by
    rw [saveCVEs_append_ok env c version _ pre (d :: post) w2 w3 t3 hpre, hd]
    simp
  have hv := updateVersions_save_err env c version after w1 w2 w3 t2 t3 res _ _ hdev hfetch
    hdec hsave
  rw [Update_of_manifest env c w w0 t0 _ hman,
    updateVersions_append_ok env c before (version :: after) w0 w1 t1 hbefore, hv]
  simp

theorem Update_malformed_identifier_aborts_witness :
    shortIdentifier.CveID ≠ "" ∧ (Split shortIdentifier.CveID '-').length ≠ 3
    ∧ Update shortIdEnv demoConfig emptyWorld
      = (some (.wrap "failed to save CVE-ID per package name"
            (.errorf "invalid CVE-ID format: CVE-2020")),
         { net := 2,
           store := fun p => if p = "vuln-list/photon/3.0/curl/CVE-2020-0001.json"
             then some { curl0001 with OSVersion := "3.0" } else none },
         [Event.fetch "https://feed/photon_versions.json" 2 (.ok [0]),
          Event.fetch "https://feed/cve_data_photon3.0.json" 1 (.ok [1]),
          Event.write "vuln-list/photon/3.0/curl" "CVE-2020-0001.json"
            { curl0001 with OSVersion := "3.0" } none]) :=
  ⟨by decide, by decide,
   Update_malformed_identifier_aborts shortIdEnv demoConfig emptyWorld
     { net := 1, store := fun _ => none } { net := 1, store := fun _ => none }
     { net := 2, store := fun _ => none }
     { net := 2,
       store := fun p => if p = "vuln-list/photon/3.0/curl/CVE-2020-0001.json"
         then some { curl0001 with OSVersion := "3.0" } else none }
     [Event.fetch "https://feed/photon_versions.json" 2 (.ok [0])] []
     [Event.fetch "https://feed/cve_data_photon3.0.json" 1 (.ok [1])]
     [Event.write "vuln-list/photon/3.0/curl" "CVE-2020-0001.json"
        { curl0001 with OSVersion := "3.0" } none]
     [] ["4.0"] "3.0" [1] [curl0001] [curl0001b] shortIdentifier
     rfl rfl (by decide) rfl rfl rfl (by decide) (by decide)⟩

/-! ### Exhausted fetches -/

theorem fetchAdvisory_exhausted (env : Env σ τ φ ρ) (c : Config φ) (version : String)
    (w : World σ τ)
    (hfail : ∀ j, j < c.Retry.toNat →
      ∃ e, attemptOutcome env (c.URL ++ advisoryFormat version) j w.net = .error e) :
    fetchAdvisory env c version w
      = (.error (.errorf ("failed to fetch Photon advisory for version " ++ version ++
            " after " ++ toString c.Retry ++ " retries")),
         { w with net := netAfter env (c.URL ++ advisoryFormat version) c.Retry.toNat w.net },
         (List.range c.Retry.toNat).map (fun j =>
           Event.fetch (c.URL ++ advisoryFormat version) 1
             (attemptOutcome env (c.URL ++ advisoryFormat version) j w.net))) := by
  rcases fetchAttempts_spec env (c.URL ++ advisoryFormat version) c.Retry.toNat w with
    ⟨k, hk, b, hb, _, _⟩ | ⟨_, heq⟩
  · obtain ⟨e, he⟩ := hfail k hk
    rw [hb] at he
    cases he
  · simp only [fetchAdvisory, heq]

/-- C6: when the run reaches a version `version` of the manifest (the versions before
it were processed without error and it is not a "dev" entry) and each of the
`c.Retry` attempts of the advisory fetcher for it fails, `Update` returns an error;
its trace ends with those failed attempts, so nothing is fetched or written for the
versions after `version`; and the store at the end is the store as it was after the
versions before `version`. -/
theorem Update_fetch_exhausted_aborts (env : Env σ τ φ ρ) (c : Config φ)
    (w w0 w1 : World σ τ) (t0 t1 : List (Event ρ))
    (before after : List String) (version : String)
    (hman : getPhotonVersion env c w = (.ok (before ++ version :: after), w0, t0))
    (hbefore : updateVersions env c before w0 = (none, w1, t1))
    (hdev : ToLower version ≠ "dev")
    (hfail : ∀ j, j < c.Retry.toNat →
      ∃ e, attemptOutcome env (c.URL ++ advisoryFormat version) j w1.net = .error e) :
    Update env c w
      = (some (.wrap "failed to fetch Photon advisory"
            (.errorf ("failed to fetch Photon advisory for version " ++ version ++
              " after " ++ toString c.Retry ++ " retries"))),
         { net := netAfter env (c.URL ++ advisoryFormat version) c.Retry.toNat w1.net,
           store := w1.store },
         t0 ++ t1 ++ (List.range c.Retry.toNat).map (fun j =>
           Event.fetch (c.URL ++ advisoryFormat version) 1
             (attemptOutcome env (c.URL ++ advisoryFormat version) j w1.net)))
    ∧ (Update env c w).2.1.store = w1.store := by
  have hv := updateVersions_fetch_err env c version after w1 _ _ _ hdev
    (fetchAdvisory_exhausted env c version w1 hfail)
  have hU : Update env c w
      = (some (.wrap "failed to fetch Photon advisory"
            (.errorf ("failed to fetch Photon advisory for version " ++ version ++
              " after " ++ toString c.Retry ++ " retries"))),
         { net := netAfter env (c.URL ++ advisoryFormat version) c.Retry.toNat w1.net,
           store := w1.store },
         t0 ++ t1 ++ (List.range c.Retry.toNat).map (fun j =>
           Event.fetch (c.URL ++ advisoryFormat version) 1
             (attemptOutcome env (c.URL ++ advisoryFormat version) j w1.net))) := by
    rw [Update_of_manifest env c w w0 t0 _ hman,
      updateVersions_append_ok env c before (version :: after) w0 w1 t1 hbefore, hv]
    simp
  exact ⟨hU, by rw [hU]⟩

theorem Update_fetch_exhausted_aborts_witness :
    Update missingBranchEnv demoConfig emptyWorld
      = (some (.wrap "failed to fetch Photon advisory"
            (.errorf "failed to fetch Photon advisory for version 5.0 after 2 retries")),
         { net := 4,
           store := fun p => if p = "vuln-list/photon/3.0/curl/CVE-2020-0001.json"
             then some { curl0001 with OSVersion := "3.0" } else none },
         [Event.fetch "https://feed/photon_versions.json" 2 (.ok [0]),
          Event.fetch "https://feed/cve_data_photon3.0.json" 1 (.ok [1]),
          Event.write "vuln-list/photon/3.0/curl" "CVE-2020-0001.json"
            { curl0001 with OSVersion := "3.0" } none,
          Event.fetch "https://feed/cve_data_photon5.0.json" 1
            (.error (.external "not found")),
          Event.fetch "https://feed/cve_data_photon5.0.json" 1
            (.error (.external "not found"))]) :=
  (Update_fetch_exhausted_aborts missingBranchEnv demoConfig emptyWorld
     { net := 1, store := fun _ => none }
     { net := 2,
       store := fun p => if p = "vuln-list/photon/3.0/curl/CVE-2020-0001.json"
         then some { curl0001 with OSVersion := "3.0" } else none }
     [Event.fetch "https://feed/photon_versions.json" 2 (.ok [0])]
     [Event.fetch "https://feed/cve_data_photon3.0.json" 1 (.ok [1]),
      Event.write "vuln-list/photon/3.0/curl" "CVE-2020-0001.json"
        { curl0001 with OSVersion := "3.0" } none]
     ["3.0"] ["4.0"] "5.0" rfl rfl (by decide)
     (fun _ _ => ⟨.external "not found", rfl⟩)).1

theorem fetchAdvisory_first_success_or_exhausted_witness :
    fetchAdvisory demoEnv { demoConfig with Retry := 0 } "3.0" emptyWorld
      = (.error (.errorf "failed to fetch Photon advisory for version 3.0 after 0 retries"),
         emptyWorld, [])
    ∧ ((∃ e, (fetchAdvisory demoEnv demoConfig "5.0" emptyWorld).1 = .error e)
        ↔ ∀ j, j < 2 →
            ∃ e, attemptOutcome demoEnv "https://feed/cve_data_photon5.0.json" j 0
              = .error e) :=
  ⟨(fetchAdvisory_first_success_or_exhausted demoEnv { demoConfig with Retry := 0 } "3.0"
      emptyWorld).2.2.2 (by decide),
   (fetchAdvisory_first_success_or_exhausted demoEnv demoConfig "5.0" emptyWorld).2.1⟩

/-! ### What the trace of a run contains -/

theorem fetchAttempts_events (env : Env σ τ φ ρ) (url : String) (n : Nat) (w : World σ τ)
    (ev : Event ρ) (h : ev ∈ (fetchAttempts env url n w).2.2) :
    ∃ res, ev = Event.fetch url 1 res := by
  rcases fetchAttempts_spec env url n w with ⟨k, _, b, _, _, heq⟩ | ⟨_, heq⟩ <;>
  · rw [heq] at h
    obtain ⟨j, _, hj⟩ := List.mem_map.1 h
    exact ⟨_, hj.symm⟩

theorem fetchAttempts_some_mem (env : Env σ τ φ ρ) (url : String) (n : Nat)
    (w w1 : World σ τ) (b : Bytes) (t : List (Event ρ))
    (h : fetchAttempts env url n w = (some b, w1, t)) :
    Event.fetch url 1 (.ok b) ∈ t := by
  rcases fetchAttempts_spec env url n w with ⟨k, _, b1, hb, _, heq⟩ | ⟨_, heq⟩
  · rw [heq] at h
    simp only [Prod.mk.injEq, Option.some.injEq] at h
    obtain ⟨hb1, -, ht⟩ := h
    rw [← ht, ← hb1]
    exact List.mem_map.2 ⟨k, List.mem_range.2 (Nat.lt_succ_self k), by rw [hb]⟩
  · rw [heq] at h
    simp at h

theorem fetchAdvisory_events (env : Env σ τ φ ρ) (c : Config φ) (version : String)
    (w : World σ τ) (ev : Event ρ) (h : ev ∈ (fetchAdvisory env c version w).2.2) :
    ∃ res, ev = Event.fetch (c.URL ++ advisoryFormat version) 1 res := by
  apply fetchAttempts_events env _ c.Retry.toNat w
  simp only [fetchAdvisory] at h
  rcases hf : fetchAttempts env (c.URL ++ advisoryFormat version) c.Retry.toNat w with
    ⟨_ | b, w1, t⟩ <;>
  · rw [hf] at h
    exact h

theorem fetchAdvisory_ok_mem (env : Env σ τ φ ρ) (c : Config φ) (version : String)
    (w w1 : World σ τ) (b : Bytes) (t : List (Event ρ))
    (h : fetchAdvisory env c version w = (.ok b, w1, t)) :
    Event.fetch (c.URL ++ advisoryFormat version) 1 (.ok b) ∈ t := by
  simp only [fetchAdvisory] at h
  rcases hf : fetchAttempts env (c.URL ++ advisoryFormat version) c.Retry.toNat w with
    ⟨_ | b1, w2, t2⟩
  · rw [hf] at h
    simp at h
  · rw [hf] at h
    simp only [Prod.mk.injEq, Except.ok.injEq] at h
    obtain ⟨hb, hw, ht⟩ := h
    subst hb
    subst ht
    exact fetchAttempts_some_mem env _ _ w w2 b1 t2 hf

theorem saveCVEPerPkg_events (env : Env σ τ φ ρ) (c : Config φ)
    (dirName pkgName cveID : String) (data : PhotonCVE ρ) (w : World σ τ) (ev : Event ρ)
    (h : ev ∈ (saveCVEPerPkg env c dirName pkgName cveID data w).2.2) :
    (Split cveID '-').length = 3
    ∧ ∃ res, ev = Event.write (env.Join [c.VulnListDir, dirName, pkgName])
        (cveID ++ ".json") data res := by
  by_cases hseg : (Split cveID '-').length = 3
  · rw [saveCVEPerPkg_valid env c dirName pkgName cveID data w hseg] at h
    exact ⟨hseg, _, List.mem_singleton.1 h⟩
  · by_cases hne : cveID = ""
    · subst hne
      rw [saveCVEPerPkg_empty] at h
      simp at h
    · rw [saveCVEPerPkg_invalid env c dirName pkgName cveID data w hne hseg] at h
      simp at h

theorem saveCVEs_events (env : Env σ τ φ ρ) (c : Config φ) (version dir : String)
    (cves : List (PhotonCVE ρ)) (w : World σ τ) (ev : Event ρ)
    (h : ev ∈ (saveCVEs env c version dir cves w).2.2) :
    ∃ r, r ∈ cves ∧ (Split r.CveID '-').length = 3
      ∧ ∃ res, ev = Event.write (env.Join [c.VulnListDir, dir, r.Pkg]) (r.CveID ++ ".json")
          { r with OSVersion := version } res := by
  induction cves generalizing w with
  | nil => simp [saveCVEs] at h
  | cons d rest ih =>
    rcases hd : saveCVEPerPkg env c dir d.Pkg d.CveID { d with OSVersion := version } w with
      ⟨_ | err, wd, td⟩
    · rw [saveCVEs_cons_ok env c version dir d rest w wd td hd] at h
      rcases List.mem_append.1 h with h1 | h2
      · have hmem : ev ∈ (saveCVEPerPkg env c dir d.Pkg d.CveID
            { d with OSVersion := version } w).2.2 := by rw [hd]; exact h1
        obtain ⟨hseg, res, hev⟩ := saveCVEPerPkg_events env c dir d.Pkg d.CveID _ w ev hmem
        exact ⟨d, List.mem_cons_self _ _, hseg, res, hev⟩
      · obtain ⟨r, hr, hseg, res, hev⟩ := ih wd h2
        exact ⟨r, List.mem_cons_of_mem _ hr, hseg, res, hev⟩
    · rw [saveCVEs_cons_err env c version dir d rest w wd td err hd] at h
      have hmem : ev ∈ (saveCVEPerPkg env c dir d.Pkg d.CveID
          { d with OSVersion := version } w).2.2 := by rw [hd]; exact h
      obtain ⟨hseg, res, hev⟩ := saveCVEPerPkg_events env c dir d.Pkg d.CveID _ w ev hmem
      exact ⟨d, List.mem_cons_self _ _, hseg, res, hev⟩

theorem CallFor_mono (env : Env σ τ φ ρ) (c : Config φ) (t t1 : List (Event ρ))
    (version : String) (ev : Event ρ) (hsub : ∀ e, e ∈ t → e ∈ t1)
    (h : CallFor env c t version ev) : CallFor env c t1 version ev := by
  rcases h with h | ⟨b, cves, r, res, hmem, hrest⟩
  · exact Or.inl h
  · exact Or.inr ⟨b, cves, r, res, hsub _ hmem, hrest⟩

theorem updateVersions_events (env : Env σ τ φ ρ) (c : Config φ) (versions : List String)
    (w : World σ τ) (ev : Event ρ) (h : ev ∈ (updateVersions env c versions w).2.2) :
    ∃ version, version ∈ versions ∧ ToLower version ≠ "dev"
      ∧ CallFor env c (updateVersions env c versions w).2.2 version ev := by
  induction versions generalizing w with
  | nil => simp [updateVersions] at h
  | cons v rest ih =>
    by_cases hdev : ToLower v = "dev"
    · rw [updateVersions_dev env c v rest w hdev] at h ⊢
      obtain ⟨x, hx, hxdev, hcall⟩ := ih w h
      exact ⟨x, List.mem_cons_of_mem _ hx, hxdev, hcall⟩
    · have hfev : ∀ e, e ∈ (fetchAdvisory env c v w).2.2 →
          ∃ res, e = Event.fetch (c.URL ++ advisoryFormat v) 1 res :=
        fun e he => fetchAdvisory_events env c v w e he
      rcases hf : fetchAdvisory env c v w with ⟨_ | res, wf, tf⟩
      · rw [updateVersions_fetch_err env c v rest w wf tf _ hdev hf] at h ⊢
        rw [hf] at hfev
        exact ⟨v, List.mem_cons_self _ _, hdev, Or.inl (hfev ev h)⟩
      · rw [hf] at hfev
        have hokmem := fetchAdvisory_ok_mem env c v w wf res tf hf
        cases hdec : env.UnmarshalCVEs res with
        | error err =>
          rw [updateVersions_decode_err env c v rest w wf tf res err hdev hf hdec] at h ⊢
          exact ⟨v, List.mem_cons_self _ _, hdev, Or.inl (hfev ev h)⟩
        | ok cves =>
          have hsev : ∀ e, e ∈ (saveCVEs env c v (env.Join [photonDir, v]) cves wf).2.2 →
              CallFor env c tf v e := by
            intro e he
            obtain ⟨r, hr, hseg, wres, hev⟩ := saveCVEs_events env c v _ cves wf e he
            exact Or.inr ⟨res, cves, r, wres, hokmem, hdec, hr, hseg, hev⟩
          rcases hs : saveCVEs env c v (env.Join [photonDir, v]) cves wf with
            ⟨_ | err, ws, ts⟩
          · rw [updateVersions_step_ok env c v rest w wf ws tf ts res cves hdev hf hdec hs]
              at h ⊢
            rw [hs] at hsev
            simp only [List.mem_append] at h
            rcases h with (h1 | h2) | h3
            · exact ⟨v, List.mem_cons_self _ _, hdev, Or.inl (hfev ev h1)⟩
            · refine ⟨v, List.mem_cons_self _ _, hdev,
                CallFor_mono env c tf _ v ev ?_ (hsev ev h2)⟩
              intro e he
              simp [he]
            · obtain ⟨x, hx, hxdev, hcall⟩ := ih ws h3
              refine ⟨x, List.mem_cons_of_mem _ hx, hxdev,
                CallFor_mono env c _ _ x ev ?_ hcall⟩
              intro e he
              simp [he]
          · rw [updateVersions_save_err env c v rest w wf ws tf ts res cves err hdev hf hdec
              hs] at h ⊢
            rw [hs] at hsev
            rcases List.mem_append.1 h with h1 | h2
            · exact ⟨v, List.mem_cons_self _ _, hdev, Or.inl (hfev ev h1)⟩
            · refine ⟨v, List.mem_cons_self _ _, hdev,
                CallFor_mono env c tf _ v ev ?_ (hsev ev h2)⟩
              intro e he
              simp [he]

theorem getPhotonVersion_events (env : Env σ τ φ ρ) (c : Config φ) (w : World σ τ) :
    (getPhotonVersion env c w).2.2
      = [Event.fetch (c.URL ++ versionsFile) c.Retry
          (env.FetchURL (c.URL ++ versionsFile) "" c.Retry w.net).1] := by
  simp only [getPhotonVersion]
  rw [callFetchURL_eq]
  cases h : (env.FetchURL (c.URL ++ versionsFile) "" c.Retry w.net).1 with
  | error e => rfl
  | ok b =>
    simp only
    cases env.UnmarshalVersions b <;> rfl

theorem Update_events (env : Env σ τ φ ρ) (c : Config φ) (w : World σ τ) (ev : Event ρ)
    (h : ev ∈ (Update env c w).2.2) :
    (∃ res, ev = Event.fetch (c.URL ++ versionsFile) c.Retry res)
    ∨ ∃ version, ToLower version ≠ "dev" ∧ CallFor env c (Update env c w).2.2 version ev := by
  have hg := getPhotonVersion_events env c w
  rcases hm : getPhotonVersion env c w with ⟨_ | versions, w0, t0⟩
  · simp only [Update, hm] at h
    rw [hm] at hg
    simp only at hg
    rw [hg] at h
    exact Or.inl ⟨_, List.mem_singleton.1 h⟩
  · rw [Update_of_manifest env c w w0 t0 versions hm] at h ⊢
    rw [hm] at hg
    simp only at hg
    rcases List.mem_append.1 h with h1 | h2
    · rw [hg] at h1
      exact Or.inl ⟨_, List.mem_singleton.1 h1⟩
    · obtain ⟨x, _, hxdev, hcall⟩ := updateVersions_events env c versions w0 ev h2
      refine Or.inr ⟨x, hxdev, CallFor_mono env c _ _ x ev ?_ hcall⟩
      intro e he
      simp [he]

/-! ### The "dev" entries and the version stamped on the records -/

theorem advisoryFormat_url_inj (u v v1 : String)
    (h : u ++ advisoryFormat v = u ++ advisoryFormat v1) : v = v1 := by
  have hd := congrArg String.data h
  simp only [advisoryFormat, String.data_append] at hd
  have h1 := List.append_cancel_right (List.append_cancel_left hd)
  exact String.ext (List.append_cancel_left h1)

theorem versionsFile_url_ne (u v : String) : u ++ versionsFile ≠ u ++ advisoryFormat v := by
  intro h
  have hd := congrArg String.data h
  simp only [advisoryFormat, String.data_append] at hd
  have h1 := congrArg List.head? (List.append_cancel_left hd)
  rw [show versionsFile.data = 'p' :: "hoton_versions.json".data from rfl] at h1
  simp at h1

theorem updateVersions_filter_dev (env : Env σ τ φ ρ) (c : Config φ) (versions : List String)
    (w : World σ τ) :
    updateVersions env c versions w
      = updateVersions env c (versions.filter (fun v => ToLower v != "dev")) w := by
  induction versions generalizing w with
  | nil => rfl
  | cons v rest ih =>
    by_cases hdev : ToLower v = "dev"
    · rw [updateVersions_dev env c v rest w hdev, ih w]
      simp [List.filter, hdev]
    · have hf : (v :: rest).filter (fun v => ToLower v != "dev")
          = v :: rest.filter (fun v => ToLower v != "dev") :=
        List.filter_cons_of_pos (by simpa using hdev)
      rw [hf]
      simp only [updateVersions, if_neg hdev]
      simp only [← ih]

/-- C4: whatever the manifest, the fetcher and the writer do, the trace of `Update`
holds no fetch of the advisories of a version whose lower-cased value is "dev" and no
write of a record stamped with such a version; and the loop over the manifest does
exactly what it does on the manifest with those entries removed. -/
theorem Update_skips_dev (env : Env σ τ φ ρ) (c : Config φ) (w : World σ τ) :
    (∀ version, ToLower version = "dev" → ∀ n res,
        Event.fetch (c.URL ++ advisoryFormat version) n res ∉ (Update env c w).2.2)
    ∧ (∀ version, ToLower version = "dev" → ∀ dir file data res,
        Event.write dir file data res ∈ (Update env c w).2.2 → data.OSVersion ≠ version)
    ∧ (∀ versions w0, updateVersions env c versions w0
        = updateVersions env c (versions.filter (fun v => ToLower v != "dev")) w0) := by
  refine ⟨?_, ?_, fun versions w0 => updateVersions_filter_dev env c versions w0⟩
  · intro version hdev n res hmem
    rcases Update_events env c w _ hmem with ⟨r, hr⟩ | ⟨x, hx, ⟨r, hr⟩ | ⟨b, cves, rec, r, _, _, _, _, hr⟩⟩
    · simp only [Event.fetch.injEq] at hr
      exact versionsFile_url_ne c.URL version hr.1.symm
    · simp only [Event.fetch.injEq] at hr
      have := advisoryFormat_url_inj c.URL version x hr.1
      subst this
      exact hx hdev
    · cases hr
  · intro version hdev dir file data res hmem hv
    rcases Update_events env c w _ hmem with ⟨r, hr⟩ | ⟨x, hx, ⟨r, hr⟩ | ⟨b, cves, rec, r, _, _, _, _, hr⟩⟩
    · cases hr
    · cases hr
    · simp only [Event.write.injEq] at hr
      obtain ⟨-, -, hdata, -⟩ := hr
      rw [hdata] at hv
      simp only at hv
      subst hv
      exact hx hdev

theorem Update_skips_dev_witness :
    ToLower "DEV" = "dev"
    ∧ Event.fetch "https://feed/cve_data_photonDEV.json" 1 (.error (.external "not found"))
        ∉ (Update demoEnv demoConfig emptyWorld).2.2
    ∧ updateVersions demoEnv demoConfig ["dev", "3.0", "Dev"] emptyWorld
        = updateVersions demoEnv demoConfig ["3.0"] emptyWorld :=
  ⟨by decide,
   (Update_skips_dev demoEnv demoConfig emptyWorld).1 "DEV" (by decide) 1
     (.error (.external "not found")),
   (Update_skips_dev demoEnv demoConfig emptyWorld).2.2 ["dev", "3.0", "Dev"] emptyWorld⟩

/-! ### Runs without error -/

theorem saveCVEPerPkg_ok (env : Env σ τ φ ρ) (c : Config φ)
    (dirName pkgName cveID : String) (data : PhotonCVE ρ) (w w1 : World σ τ)
    (t : List (Event ρ))
    (h : saveCVEPerPkg env c dirName pkgName cveID data w = (none, w1, t)) :
    (cveID = "" ∧ t = [])
    ∨ (cveID ≠ "" ∧ (Split cveID '-').length = 3
        ∧ t = [Event.write (env.Join [c.VulnListDir, dirName, pkgName]) (cveID ++ ".json")
            data none]) := by
  by_cases hne : cveID = ""
  · left
    subst hne
    rw [saveCVEPerPkg_empty] at h
    simp only [Prod.mk.injEq, true_and] at h
    exact ⟨rfl, h.2.symm⟩
  · right
    by_cases hseg : (Split cveID '-').length = 3
    · rw [saveCVEPerPkg_valid env c dirName pkgName cveID data w hseg] at h
      simp only [Prod.mk.injEq] at h
      obtain ⟨h1, -, h3⟩ := h
      cases hr : (env.WriteJSON c.AppFs (env.Join [c.VulnListDir, dirName, pkgName])
          (cveID ++ ".json") data w.store).1 with
      | none =>
        rw [hr] at h3
        exact ⟨hne, hseg, h3.symm⟩
      | some e =>
        rw [hr] at h1
        simp at h1
    · rw [saveCVEPerPkg_invalid env c dirName pkgName cveID data w hne hseg] at h
      simp at h

theorem applyWrites_append (join : List String → String) (t1 t2 : List (Event ρ))
    (st : Store ρ) :
    applyWrites join (t1 ++ t2) st = applyWrites join t2 (applyWrites join t1 st) := by
  induction t1 generalizing st with
  | nil => rfl
  | cons e t ih => cases e <;> simp [applyWrites, ih]

theorem applyWrites_fetches (join : List String → String) (t : List (Event ρ)) (st : Store ρ)
    (h : ∀ ev, ev ∈ t → ∃ url n res, ev = Event.fetch url n res) :
    applyWrites join t st = st := by
  induction t generalizing st with
  | nil => rfl
  | cons e t ih =>
    obtain ⟨url, n, res, he⟩ := h e (List.mem_cons_self _ _)
    subst he
    simp only [applyWrites]
    exact ih st (fun ev hev => h ev (List.mem_cons_of_mem _ hev))

theorem applyWrites_untouched (join : List String → String) (t : List (Event ρ))
    (st : Store ρ) (p : String)
    (h : ∀ dir file d res, Event.write dir file d res ∈ t → join [dir, file] ≠ p) :
    applyWrites join t st p = st p := by
  induction t generalizing st with
  | nil => rfl
  | cons e t ih =>
    cases e with
    | fetch url n res =>
      simp only [applyWrites]
      exact ih st (fun dir file d res hm => h dir file d res (List.mem_cons_of_mem _ hm))
    | write dir file d res =>
      simp only [applyWrites]
      rw [ih _ (fun dir1 file1 d1 res1 hm => h dir1 file1 d1 res1 (List.mem_cons_of_mem _ hm))]
      have hne := h dir file d res (List.mem_cons_self _ _)
      simp [Ne.symm hne]

theorem fetchAdvisory_store (env : Env σ τ φ ρ) (c : Config φ) (version : String)
    (w : World σ τ) : (fetchAdvisory env c version w).2.1.store = w.store := by
  rcases fetchAdvisory_cases env c version w with ⟨k, _, b, _, _, heq⟩ | ⟨_, heq⟩ <;>
  · rw [heq]

theorem getPhotonVersion_store (env : Env σ τ φ ρ) (c : Config φ) (w : World σ τ) :
    (getPhotonVersion env c w).2.1.store = w.store := by
  simp only [getPhotonVersion]
  rw [callFetchURL_eq]
  cases h : (env.FetchURL (c.URL ++ versionsFile) "" c.Retry w.net).1 with
  | error e => rfl
  | ok b =>
    simp only
    cases env.UnmarshalVersions b <;> rfl

theorem saveCVEPerPkg_memStore (fetchURL : String → String → Int → σ → Except Error Bytes × σ)
    (uv : Bytes → Except Error (List String))
    (uc : Bytes → Except Error (List (PhotonCVE ρ))) (join : List String → String)
    (c : Config φ) (dirName pkgName cveID : String) (data : PhotonCVE ρ)
    (w : World σ (Store ρ)) :
    (saveCVEPerPkg (memEnv fetchURL uv uc join) c dirName pkgName cveID data w).2.1.store
      = applyWrites join
          (saveCVEPerPkg (memEnv fetchURL uv uc join) c dirName pkgName cveID data w).2.2
          w.store := by
  by_cases hseg : (Split cveID '-').length = 3
  · rw [saveCVEPerPkg_valid _ c dirName pkgName cveID data w hseg]
    rfl
  · by_cases hne : cveID = ""
    · subst hne
      rw [saveCVEPerPkg_empty]
      rfl
    · rw [saveCVEPerPkg_invalid _ c dirName pkgName cveID data w hne hseg]
      rfl

theorem saveCVEs_memStore (fetchURL : String → String → Int → σ → Except Error Bytes × σ)
    (uv : Bytes → Except Error (List String))
    (uc : Bytes → Except Error (List (PhotonCVE ρ))) (join : List String → String)
    (c : Config φ) (version dir : String) (cves : List (PhotonCVE ρ))
    (w : World σ (Store ρ)) :
    (saveCVEs (memEnv fetchURL uv uc join) c version dir cves w).2.1.store
      = applyWrites join (saveCVEs (memEnv fetchURL uv uc join) c version dir cves w).2.2
          w.store := by
  induction cves generalizing w with
  | nil => rfl
  | cons d rest ih =>
    have hd1 := saveCVEPerPkg_memStore fetchURL uv uc join c dir d.Pkg d.CveID
      { d with OSVersion := version } w
    rcases hd : saveCVEPerPkg (memEnv fetchURL uv uc join) c dir d.Pkg d.CveID
        { d with OSVersion := version } w with ⟨_ | err, wd, td⟩
    · rw [hd] at hd1
      simp only at hd1
      rw [saveCVEs_cons_ok _ c version dir d rest w wd td hd]
      simp only
      rw [applyWrites_append, ih wd, hd1]
    · rw [hd] at hd1
      rw [saveCVEs_cons_err _ c version dir d rest w wd td err hd]
      exact hd1

theorem updateVersions_memStore
    (fetchURL : String → String → Int → σ → Except Error Bytes × σ)
    (uv : Bytes → Except Error (List String))
    (uc : Bytes → Except Error (List (PhotonCVE ρ))) (join : List String → String)
    (c : Config φ) (versions : List String) (w : World σ (Store ρ)) :
    (updateVersions (memEnv fetchURL uv uc join) c versions w).2.1.store
      = applyWrites join (updateVersions (memEnv fetchURL uv uc join) c versions w).2.2
          w.store := by
  induction versions generalizing w with
  | nil => rfl
  | cons v rest ih =>
    by_cases hdev : ToLower v = "dev"
    · rw [updateVersions_dev _ c v rest w hdev]
      exact ih w
    · have hst := fetchAdvisory_store (memEnv fetchURL uv uc join) c v w
      have hev : ∀ ev, ev ∈ (fetchAdvisory (memEnv fetchURL uv uc join) c v w).2.2 →
          ∃ url n res, ev = Event.fetch url n res := by
        intro ev hm
        obtain ⟨res, hres⟩ := fetchAdvisory_events _ c v w ev hm
        exact ⟨_, _, res, hres⟩
      rcases hf : fetchAdvisory (memEnv fetchURL uv uc join) c v w with ⟨_ | res, wf, tf⟩
      · rw [hf] at hst hev
        rw [updateVersions_fetch_err _ c v rest w wf tf _ hdev hf]
        simp only at hst hev ⊢
        rw [applyWrites_fetches join tf w.store hev, hst]
      · rw [hf] at hst hev
        simp only at hst hev
        cases hdec : (memEnv fetchURL uv uc join).UnmarshalCVEs res with
        | error err =>
          rw [updateVersions_decode_err _ c v rest w wf tf res err hdev hf hdec]
          simp only
          rw [applyWrites_fetches join tf w.store hev, hst]
        | ok cves =>
          have hsv := saveCVEs_memStore fetchURL uv uc join c v (join [photonDir, v]) cves wf
          rcases hs : saveCVEs (memEnv fetchURL uv uc join) c v (join [photonDir, v]) cves
              wf with
            ⟨_ | err, ws, ts⟩
          · rw [hs] at hsv
            simp only at hsv
            rw [updateVersions_step_ok _ c v rest w wf ws tf ts res cves hdev hf hdec hs]
            simp only
            rw [applyWrites_append, applyWrites_append,
              applyWrites_fetches join tf w.store hev, ih ws, hsv, hst]
          · rw [hs] at hsv
            simp only at hsv
            rw [updateVersions_save_err _ c v rest w wf ws tf ts res cves err hdev hf hdec hs]
            simp only
            rw [applyWrites_append, applyWrites_fetches join tf w.store hev, hsv, hst]

theorem Update_memStore (fetchURL : String → String → Int → σ → Except Error Bytes × σ)
    (uv : Bytes → Except Error (List String))
    (uc : Bytes → Except Error (List (PhotonCVE ρ))) (join : List String → String)
    (c : Config φ) (w : World σ (Store ρ)) :
    (Update (memEnv fetchURL uv uc join) c w).2.1.store
      = applyWrites join (Update (memEnv fetchURL uv uc join) c w).2.2 w.store := by
  have hst := getPhotonVersion_store (memEnv fetchURL uv uc join) c w
  have hev := getPhotonVersion_events (memEnv fetchURL uv uc join) c w
  rcases hm : getPhotonVersion (memEnv fetchURL uv uc join) c w with ⟨_ | versions, w0, t0⟩
  · rw [hm] at hst hev
    simp only at hst hev
    simp only [Update, hm]
    rw [hev, hst]
    rfl
  · rw [hm] at hst hev
    simp only at hst hev
    rw [Update_of_manifest _ c w w0 t0 versions hm]
    simp only
    rw [applyWrites_append, updateVersions_memStore, hev, hst]
    rfl

theorem Update_write_path (env : Env σ τ φ ρ) (c : Config φ) (w : World σ τ)
    (dir file : String) (data : PhotonCVE ρ) (res : Option Error)
    (h : Event.write dir file data res ∈ (Update env c w).2.2) :
    dir = env.Join [c.VulnListDir, env.Join [photonDir, data.OSVersion], data.Pkg]
    ∧ file = data.CveID ++ ".json" := by
  rcases Update_events env c w _ h with ⟨r, hr⟩ | ⟨x, _, ⟨r, hr⟩ | ⟨b, cves, rec, r, _, _, _, _, hr⟩⟩
  · cases hr
  · cases hr
  · simp only [Event.write.injEq] at hr
    obtain ⟨hdir, hfile, hdata, -⟩ := hr
    subst hdata
    exact ⟨hdir, hfile⟩

/-- C8, as stated, fails when the run stops between the two records: the payload of
3.0 holds two records for package curl and identifier CVE-2020-0001 (a valid
identifier) with a malformed record between them; only the first is written, and
after the run the path holds the content of the first record, not of the later one.
It also fails for the first two of three records with that package and identifier:
all three go to the same path, which holds the content of the third after the run. -/
theorem same_triple_later_record_not_written :
    (shortIdEnv.UnmarshalCVEs [1] = .ok [curl0001, shortIdentifier, curl0001b]
      ∧ curl0001.Pkg = curl0001b.Pkg ∧ curl0001.CveID = curl0001b.CveID
      ∧ (Split curl0001.CveID '-').length = 3
      ∧ writesOf (Update shortIdEnv demoConfig emptyWorld).2.2
          = [Event.write "vuln-list/photon/3.0/curl" "CVE-2020-0001.json"
              { curl0001 with OSVersion := "3.0" } none]
      ∧ (Update shortIdEnv demoConfig emptyWorld).2.1.store
            "vuln-list/photon/3.0/curl/CVE-2020-0001.json"
          = some { curl0001 with OSVersion := "3.0" }
      ∧ (Update shortIdEnv demoConfig emptyWorld).2.1.store
            "vuln-list/photon/3.0/curl/CVE-2020-0001.json"
          ≠ some { curl0001b with OSVersion := "3.0" })
    ∧ (tripleEnv.UnmarshalCVEs [1] = .ok [curl0001, curl0001b, curl0001c]
      ∧ (Update tripleEnv demoConfig emptyWorld).1 = none
      ∧ writesOf (Update tripleEnv demoConfig emptyWorld).2.2
          = [Event.write "vuln-list/photon/3.0/curl" "CVE-2020-0001.json"
              { curl0001 with OSVersion := "3.0" } none,
             Event.write "vuln-list/photon/3.0/curl" "CVE-2020-0001.json"
              { curl0001b with OSVersion := "3.0" } none,
             Event.write "vuln-list/photon/3.0/curl" "CVE-2020-0001.json"
              { curl0001c with OSVersion := "3.0" } none]
      ∧ (Update tripleEnv demoConfig emptyWorld).2.1.store
            "vuln-list/photon/3.0/curl/CVE-2020-0001.json"
          ≠ some { curl0001b with OSVersion := "3.0" }) :=
  ⟨⟨rfl, rfl, rfl, by decide, rfl, rfl, by
      rw [show (Update shortIdEnv demoConfig emptyWorld).2.1.store
            "vuln-list/photon/3.0/curl/CVE-2020-0001.json"
          = some { curl0001 with OSVersion := "3.0" } from rfl]
      decide⟩,
   ⟨rfl, rfl, rfl, by
      rw [show (Update tripleEnv demoConfig emptyWorld).2.1.store
            "vuln-list/photon/3.0/curl/CVE-2020-0001.json"
          = some { curl0001c with OSVersion := "3.0" } from rfl]
      decide⟩⟩

/-- C8 (amended): with the store a map from file path to content, in every run of
`Update` two written records that carry the same (version, package, identifier)
triple are written to the same directory and file, and after the run that path holds
the content of the later one, provided no write after it in the run targets the same
path (last write wins, no merge). -/
theorem Update_last_write_wins
    (fetchURL : String → String → Int → σ → Except Error Bytes × σ)
    (uv : Bytes → Except Error (List String))
    (uc : Bytes → Except Error (List (PhotonCVE ρ))) (join : List String → String)
    (c : Config φ) (w : World σ (Store ρ)) (pre mid post : List (Event ρ))
    (dir1 file1 dir2 file2 : String) (d1 d2 : PhotonCVE ρ) (res1 res2 : Option Error)
    (htrace : (Update (memEnv fetchURL uv uc join) c w).2.2
      = pre ++ (Event.write dir1 file1 d1 res1 :: mid)
          ++ (Event.write dir2 file2 d2 res2 :: post))
    (hv : d1.OSVersion = d2.OSVersion) (hp : d1.Pkg = d2.Pkg) (hi : d1.CveID = d2.CveID)
    (hlast : ∀ dir file d res, Event.write dir file d res ∈ post →
      join [dir, file] ≠ join [dir2, file2]) :
    dir1 = dir2 ∧ file1 = file2
    ∧ (Update (memEnv fetchURL uv uc join) c w).2.1.store (join [dir2, file2]) = some d2 := by
  have hm1 : Event.write dir1 file1 d1 res1 ∈ (Update (memEnv fetchURL uv uc join) c w).2.2 := by
    rw [htrace]
    simp
  have hm2 : Event.write dir2 file2 d2 res2 ∈ (Update (memEnv fetchURL uv uc join) c w).2.2 := by
    rw [htrace]
    simp
  obtain ⟨hdir1, hfile1⟩ := Update_write_path _ c w dir1 file1 d1 res1 hm1
  obtain ⟨hdir2, hfile2⟩ := Update_write_path _ c w dir2 file2 d2 res2 hm2
  refine ⟨?_, ?_, ?_⟩
  · rw [hdir1, hdir2, hv, hp]
  · rw [hfile1, hfile2, hi]
  · rw [Update_memStore, htrace, applyWrites_append]
    simp only [applyWrites]
    rw [applyWrites_untouched join post _ _ hlast]
    simp

theorem Update_last_write_wins_witness :
    (Update orderEnv demoConfig emptyWorld).2.1.store
        "vuln-list/photon/3.0/curl/CVE-2020-0001.json"
      = some { curl0001b with OSVersion := "3.0" } :=
  (Update_last_write_wins (fun url _ _ k => (demoFeed url k, k + 1))
    (manifestOf ["3.0", "Dev", "4.0", "3.0"])
    (payloadOf [curl0001, noIdentifier, curl0001b] [openssl0002]) plainJoin
    demoConfig emptyWorld
    [Event.fetch "https://feed/photon_versions.json" 2 (.ok [0]),
     Event.fetch "https://feed/cve_data_photon3.0.json" 1 (.ok [1])]
    [Event.write "vuln-list/photon/3.0/curl" "CVE-2020-0001.json"
       { curl0001b with OSVersion := "3.0" } none,
     Event.fetch "https://feed/cve_data_photon4.0.json" 1 (.ok [2]),
     Event.write "vuln-list/photon/4.0/openssl" "CVE-2021-0002.json"
       { openssl0002 with OSVersion := "4.0" } none,
     Event.fetch "https://feed/cve_data_photon3.0.json" 1 (.ok [1]),
     Event.write "vuln-list/photon/3.0/curl" "CVE-2020-0001.json"
       { curl0001 with OSVersion := "3.0" } none]
    []
    "vuln-list/photon/3.0/curl" "CVE-2020-0001.json"
    "vuln-list/photon/3.0/curl" "CVE-2020-0001.json"
    { curl0001 with OSVersion := "3.0" } { curl0001b with OSVersion := "3.0" } none none
    rfl rfl rfl rfl (fun _ _ _ _ h => absurd h (List.not_mem_nil _))).2.2

/-! ### What the writer is handed, record by record -/

theorem writeArgs_append (t1 t2 : List (Event ρ)) :
    writeArgs (t1 ++ t2) = writeArgs t1 ++ writeArgs t2 := by
  induction t1 with
  | nil => rfl
  | cons e t ih => cases e <;> simp [writeArgs, ih]

theorem saveCVEPerPkg_err (env : Env σ τ φ ρ) (c : Config φ)
    (dirName pkgName cveID : String) (data : PhotonCVE ρ) (w w1 : World σ τ)
    (t : List (Event ρ)) (err : Error)
    (h : saveCVEPerPkg env c dirName pkgName cveID data w = (some err, w1, t)) :
    t = []
    ∨ (cveID ≠ "" ∧ ∃ e, t = [Event.write (env.Join [c.VulnListDir, dirName, pkgName])
        (cveID ++ ".json") data (some e)]) := by
  by_cases hseg : (Split cveID '-').length = 3
  · right
    refine ⟨Split_three_ne_empty cveID hseg, ?_⟩
    rw [saveCVEPerPkg_valid env c dirName pkgName cveID data w hseg] at h
    simp only [Prod.mk.injEq] at h
    obtain ⟨h1, -, h3⟩ := h
    cases hr : (env.WriteJSON c.AppFs (env.Join [c.VulnListDir, dirName, pkgName])
        (cveID ++ ".json") data w.store).1 with
    | none =>
      rw [hr] at h1
      simp at h1
    | some e =>
      rw [hr] at h3
      exact ⟨e, h3.symm⟩
  · left
    by_cases hne : cveID = ""
    · subst hne
      rw [saveCVEPerPkg_empty] at h
      simp at h
    · rw [saveCVEPerPkg_invalid env c dirName pkgName cveID data w hne hseg] at h
      simp only [Prod.mk.injEq] at h
      exact h.2.2.symm

theorem saveCVEs_writeArgs (env : Env σ τ φ ρ) (c : Config φ) (version : String)
    (cves : List (PhotonCVE ρ)) (w : World σ τ) :
    ∃ n, n ≤ cves.length
      ∧ writeArgs (saveCVEs env c version (env.Join [photonDir, version]) cves w).2.2
          = ((cves.take n).filter (fun r => r.CveID != "")).map (fun r =>
              (env.Join [c.VulnListDir, env.Join [photonDir, version], r.Pkg],
               r.CveID ++ ".json", { r with OSVersion := version }))
      ∧ ((saveCVEs env c version (env.Join [photonDir, version]) cves w).1 = none →
          n = cves.length) := by
  induction cves generalizing w with
  | nil => exact ⟨0, Nat.le_refl 0, rfl, fun _ => rfl⟩
  | cons d rest ih =>
    rcases hd : saveCVEPerPkg env c (env.Join [photonDir, version]) d.Pkg d.CveID
        { d with OSVersion := version } w with ⟨_ | err, wd, td⟩
    · rw [saveCVEs_cons_ok env c version _ d rest w wd td hd]
      obtain ⟨n, hn, hargs, hall⟩ := ih wd
      refine ⟨n + 1, Nat.succ_le_succ hn, ?_, ?_⟩
      · simp only [writeArgs_append, hargs, List.take_succ_cons]
        rcases saveCVEPerPkg_ok env c _ d.Pkg d.CveID _ w wd td hd with ⟨he, ht⟩ | ⟨hne, -, ht⟩
        · rw [ht]
          simp [writeArgs, List.filter_cons, he]
        · rw [ht]
          simp [writeArgs, List.filter_cons, hne]
      · intro hnone
        simp only at hnone
        rw [hall hnone]
        rfl
    · rw [saveCVEs_cons_err env c version _ d rest w wd td err hd]
      rcases saveCVEPerPkg_err env c _ d.Pkg d.CveID _ w wd td err hd with ht | ⟨hne, e, ht⟩
      · refine ⟨0, Nat.zero_le _, ?_, ?_⟩
        · rw [ht]
          rfl
        · intro hnone
          simp at hnone
      · refine ⟨1, Nat.succ_le_succ (Nat.zero_le _), ?_, ?_⟩
        · rw [ht]
          simp [writeArgs, List.filter_cons, hne]
        · intro hnone
          simp at hnone

theorem Update_trace_of_version (env : Env σ τ φ ρ) (c : Config φ)
    (w w0 w1 w2 : World σ τ) (t0 t1 t2 : List (Event ρ))
    (before after : List String) (version : String) (res : Bytes)
    (cves : List (PhotonCVE ρ))
    (hman : getPhotonVersion env c w = (.ok (before ++ version :: after), w0, t0))
    (hbefore : updateVersions env c before w0 = (none, w1, t1))
    (hdev : ToLower version ≠ "dev")
    (hfetch : fetchAdvisory env c version w1 = (.ok res, w2, t2))
    (hdec : env.UnmarshalCVEs res = .ok cves) :
    ∃ later, (Update env c w).2.2
      = t0 ++ t1 ++ t2
        ++ (saveCVEs env c version (env.Join [photonDir, version]) cves w2).2.2 ++ later := by
  rw [Update_of_manifest env c w w0 t0 _ hman,
    updateVersions_append_ok env c before (version :: after) w0 w1 t1 hbefore]
  rcases hs : saveCVEs env c version (env.Join [photonDir, version]) cves w2 with
    ⟨_ | err, ws, ts⟩
  · rw [updateVersions_step_ok env c version after w1 w2 ws t2 ts res cves hdev hfetch hdec hs]
    exact ⟨(updateVersions env c after ws).2.2, by simp⟩
  · rw [updateVersions_save_err env c version after w1 w2 ws t2 ts res cves err hdev hfetch
      hdec hs]
    exact ⟨[], by simp⟩

/-- C7: for every version and every list of records decoded from the payload of that
version, the record loop hands the writer, record by record in payload order, the
directory and file built from that record and the record itself with its `OSVersion`
set to the version being processed and `Pkg`, `CveID` and the remaining fields as
decoded, whatever `OSVersion` the payload carried: the write calls of the loop are
exactly those of the records with a non-empty identifier among the first `n` records,
where `n` is how far the loop got (all of them when it returns no error).  In a run
of `Update` that reaches a version, that loop runs on the records decoded from the
payload fetched for that version, right after the fetch; and every write of any run
carries such a record of a fetched payload to the directory and file of that same
record. -/
theorem Update_write_carries_stamped_record (env : Env σ τ φ ρ) (c : Config φ)
    (w : World σ τ) :
    (∀ version cves w2, ∃ n, n ≤ cves.length
        ∧ writeArgs (saveCVEs env c version (env.Join [photonDir, version]) cves w2).2.2
            = ((cves.take n).filter (fun r => r.CveID != "")).map (fun r =>
                (env.Join [c.VulnListDir, env.Join [photonDir, version], r.Pkg],
                 r.CveID ++ ".json",
                 ({ OSVersion := version, Pkg := r.Pkg, CveID := r.CveID, rest := r.rest }
                   : PhotonCVE ρ)))
        ∧ ((saveCVEs env c version (env.Join [photonDir, version]) cves w2).1 = none →
            n = cves.length))
    ∧ (∀ w0 w1 w2 t0 t1 t2 before after version res cves,
        getPhotonVersion env c w = (.ok (before ++ version :: after), w0, t0) →
        updateVersions env c before w0 = (none, w1, t1) →
        ToLower version ≠ "dev" →
        fetchAdvisory env c version w1 = (.ok res, w2, t2) →
        env.UnmarshalCVEs res = .ok cves →
        ∃ later, (Update env c w).2.2
          = t0 ++ t1 ++ t2
            ++ (saveCVEs env c version (env.Join [photonDir, version]) cves w2).2.2
            ++ later)
    ∧ (∀ dir file data res, Event.write dir file data res ∈ (Update env c w).2.2 →
        ∃ version b cves r,
          Event.fetch (c.URL ++ advisoryFormat version) 1 (.ok b) ∈ (Update env c w).2.2
          ∧ env.UnmarshalCVEs b = .ok cves ∧ r ∈ cves
          ∧ dir = env.Join [c.VulnListDir, env.Join [photonDir, version], r.Pkg]
          ∧ file = r.CveID ++ ".json"
          ∧ data = { r with OSVersion := version }
          ∧ data.OSVersion = version ∧ data.Pkg = r.Pkg ∧ data.CveID = r.CveID
          ∧ data.rest = r.rest) := by
  refine ⟨fun version cves w2 => saveCVEs_writeArgs env c version cves w2, ?_, ?_⟩
  · intro w0 w1 w2 t0 t1 t2 before after version res cves hman hbefore hdev hfetch hdec
    exact Update_trace_of_version env c w w0 w1 w2 t0 t1 t2 before after version res cves
      hman hbefore hdev hfetch hdec
  · intro dir file data res h
    rcases Update_events env c w _ h with
      ⟨r, hr⟩ | ⟨x, _, ⟨r, hr⟩ | ⟨b, cves, rec, r, hf, hdec, hmem, _, hr⟩⟩
    · cases hr
    · cases hr
    · simp only [Event.write.injEq] at hr
      obtain ⟨hdir, hfile, hdata, -⟩ := hr
      subst hdata
      exact ⟨x, b, cves, rec, hf, hdec, hmem, hdir, hfile, rfl, rfl, rfl, rfl, rfl⟩

theorem Update_write_carries_stamped_record_witness :
    curl0001b.OSVersion = "wire"
    ∧ (∃ n, n ≤ [curl0001b, noIdentifier, openssl0002].length
        ∧ [("vuln-list/photon/3.0/curl", "CVE-2020-0001.json",
              ({ OSVersion := "3.0", Pkg := "curl", CveID := "CVE-2020-0001",
                 rest := "second" } : PhotonCVE String)),
           ("vuln-list/photon/3.0/openssl", "CVE-2021-0002.json",
              ({ OSVersion := "3.0", Pkg := "openssl", CveID := "CVE-2021-0002",
                 rest := "third" } : PhotonCVE String))]
            = (([curl0001b, noIdentifier, openssl0002].take n).filter
                (fun r => r.CveID != "")).map (fun r =>
                (stampEnv.Join [demoConfig.VulnListDir, stampEnv.Join [photonDir, "3.0"],
                    r.Pkg],
                 r.CveID ++ ".json",
                 ({ OSVersion := "3.0", Pkg := r.Pkg, CveID := r.CveID, rest := r.rest }
                   : PhotonCVE String)))
        ∧ ((saveCVEs stampEnv demoConfig "3.0" (stampEnv.Join [photonDir, "3.0"])
              [curl0001b, noIdentifier, openssl0002] { net := 2, store := fun _ => none }).1
            = none → n = [curl0001b, noIdentifier, openssl0002].length))
    ∧ (∃ later, (Update stampEnv demoConfig emptyWorld).2.2
        = [Event.fetch "https://feed/photon_versions.json" 2 (.ok [0])] ++ []
          ++ [Event.fetch "https://feed/cve_data_photon3.0.json" 1 (.ok [1])]
          ++ (saveCVEs stampEnv demoConfig "3.0" (stampEnv.Join [photonDir, "3.0"])
                [curl0001b, noIdentifier, openssl0002]
                { net := 2, store := fun _ => none }).2.2
          ++ later)
    ∧ ∃ version b cves r,
        Event.fetch (demoConfig.URL ++ advisoryFormat version) 1 (.ok b)
          ∈ (Update stampEnv demoConfig emptyWorld).2.2
        ∧ stampEnv.UnmarshalCVEs b = .ok cves ∧ r ∈ cves
        ∧ "vuln-list/photon/3.0/openssl"
            = stampEnv.Join [demoConfig.VulnListDir, stampEnv.Join [photonDir, version], r.Pkg]
        ∧ "CVE-2021-0002.json" = r.CveID ++ ".json"
        ∧ ({ openssl0002 with OSVersion := "3.0" } : PhotonCVE String)
            = { r with OSVersion := version }
        ∧ ({ openssl0002 with OSVersion := "3.0" } : PhotonCVE String).OSVersion = version
        ∧ ({ openssl0002 with OSVersion := "3.0" } : PhotonCVE String).Pkg = r.Pkg
        ∧ ({ openssl0002 with OSVersion := "3.0" } : PhotonCVE String).CveID = r.CveID
        ∧ ({ openssl0002 with OSVersion := "3.0" } : PhotonCVE String).rest = r.rest :=
  ⟨rfl,
   (Update_write_carries_stamped_record stampEnv demoConfig emptyWorld).1 "3.0"
     [curl0001b, noIdentifier, openssl0002] { net := 2, store := fun _ => none },
   (Update_write_carries_stamped_record stampEnv demoConfig emptyWorld).2.1
     { net := 1, store := fun _ => none } { net := 1, store := fun _ => none }
     { net := 2, store := fun _ => none }
     [Event.fetch "https://feed/photon_versions.json" 2 (.ok [0])] []
     [Event.fetch "https://feed/cve_data_photon3.0.json" 1 (.ok [1])]
     [] [] "3.0" [1] [curl0001b, noIdentifier, openssl0002] rfl rfl (by decide) rfl rfl,
   (Update_write_carries_stamped_record stampEnv demoConfig emptyWorld).2.2
     "vuln-list/photon/3.0/openssl" "CVE-2021-0002.json"
     { openssl0002 with OSVersion := "3.0" } none
     (List.mem_cons_of_mem _ (List.mem_cons_of_mem _ (List.mem_cons_of_mem _
       (List.mem_cons_self _ _))))⟩

end Photon
